import Mathlib

/-!
Verification of the TARS ticket-classification core (pipeline/ai_analyzer.py and
pipeline/analyzer.py) against its specification.

The Python code is shallowly embedded: Python `str`/`int` values become Lean
`String`/`Int`, JSON scalars that may be either become `JNum`, dicts parsed from
JSON become association lists with (by JSON semantics) unique keys, and code
that can raise becomes `Option`-valued.  All definitions follow the source; the
few places where Python leaves an order unspecified (iteration over a `set`) are
noted in the doc comments.
-/

set_option linter.unusedVariables false

/-- Decimal digit characters, used to describe the output of `str(int)`. -/
def decimalDigits : List Char := ['0', '1', '2', '3', '4', '5', '6', '7', '8', '9']

/-- Digits in base 10, least significant first, with explicit recursion fuel
(any fuel above the value works; see `natToRevDigits_unfold`). -/
def natToRevDigitsGo : Nat → Nat → List Char
  | 0, _ => []
  | fuel + 1, n =>
    if n < 10 then [Nat.digitChar n]
    else Nat.digitChar (n % 10) :: natToRevDigitsGo fuel (n / 10)

/-- Digits of `n` in base 10, least significant first.  Helper for the model of
Python `str(int)`. -/
def natToRevDigits (n : Nat) : List Char := natToRevDigitsGo (n + 1) n

/-- Characters of Python `str(n)` for a natural number `n`. -/
def pyStrNatChars (n : Nat) : List Char := (natToRevDigits n).reverse

/-- Characters of Python `str(i)` for an integer `i`. -/
def pyStrIntChars (i : Int) : List Char :=
  if i < 0 then '-' :: pyStrNatChars i.natAbs else pyStrNatChars i.toNat

/-- Model of Python `str(i)` for an integer `i` (canonical decimal form). -/
def pyStrInt (i : Int) : String := ⟨pyStrIntChars i⟩

/-- Model of Python `str(n)` for a natural number. -/
def pyStrNat (n : Nat) : String := ⟨pyStrNatChars n⟩

/-- Value of a decimal digit character, `none` for non-digits. -/
def digitVal (c : Char) : Option Nat :=
  if '0' ≤ c ∧ c ≤ '9' then some (c.toNat - '0'.toNat) else none

/-- Accumulating decimal parser over a character list; fails on any non-digit. -/
def parseDigitsFrom (acc : Nat) : List Char → Option Nat
  | [] => some acc
  | c :: rest =>
    match digitVal c with
    | some d => parseDigitsFrom (acc * 10 + d) rest
    | none => none

/-- Parse a non-empty all-digit character list as a natural number. -/
def parseDigits (l : List Char) : Option Nat :=
  if l.isEmpty then none else parseDigitsFrom 0 l

/-- Strip leading and trailing whitespace from a character list (the model of
what Python `int(str)` does to its argument before parsing). -/
def stripChars (l : List Char) : List Char :=
  ((l.dropWhile Char.isWhitespace).reverse.dropWhile Char.isWhitespace).reverse

/-- The sign-and-digits part of Python `int(s)`: an optional sign followed by
one or more decimal digits; `none` (a raised `ValueError`) otherwise. -/
def pyIntSigned : List Char → Option Int
  | [] => none
  | c :: rest =>
    if c = '-' then (parseDigits rest).map (fun m => -(Int.ofNat m))
    else if c = '+' then (parseDigits rest).map (fun m => Int.ofNat m)
    else (parseDigits (c :: rest)).map (fun m => Int.ofNat m)

/-- Model of Python `int(s)` on the characters of `s`: strip surrounding
whitespace, then an optional sign and one or more decimal digits. -/
def pyIntChars (l0 : List Char) : Option Int := pyIntSigned (stripChars l0)

/-- Model of Python `int(s)` for a string `s`. -/
def pyIntStr (s : String) : Option Int := pyIntChars s.data

/-- Model of Python `s.strip()`: remove surrounding whitespace. -/
def pyStrip (s : String) : String := ⟨stripChars s.data⟩

/-- Model of Python `s.lower()` (ASCII case folding, which covers every string
the reconciler compares). -/
def pyLower (s : String) : String := ⟨s.data.map Char.toLower⟩

/-- A JSON scalar that may sit in a trend proposal's `ticket_numbers` list:
either a JSON number (parsed by Python as `int`) or a JSON string. -/
inductive JNum where
  | int (n : Int)
  | str (s : String)
deriving DecidableEq

/-- Python `str(num)` for such a scalar. -/
def pyStrJ : JNum → String
  | .int n => pyStrInt n
  | .str s => s

/-- Python `int(str(num))` for such a scalar, as the reconciler's rescue loop
performs it; `none` models the raised `ValueError`. -/
def pyIntJ (j : JNum) : Option Int := pyIntStr (pyStrJ j)

/-- Model of `list(dict.fromkeys(l))` with the already-seen accumulator made
explicit: drop duplicates, keeping the first occurrence of each element in
order. -/
def pyDedupFrom [DecidableEq α] (seen : List α) : List α → List α
  | [] => []
  | x :: rest =>
    if x ∈ seen then pyDedupFrom seen rest else x :: pyDedupFrom (x :: seen) rest

/-- Model of Python `list(dict.fromkeys(l))`: deduplicate preserving first-seen
order. -/
def pyDedup [DecidableEq α] (l : List α) : List α := pyDedupFrom [] l

/-- Model of Python `set.add`: append the element unless already present.  Only
membership in the result is ever consumed. -/
def insertStr (l : List String) (s : String) : List String :=
  if s ∈ l then l else l ++ [s]

/-- Append ticket number `n` to category `c` in a category-to-tickets table,
modelling `category_tickets[c].append(n)`. -/
def appendCat (f : String → List Int) (c : String) (n : Int) : String → List Int :=
  fun c' => if c' = c then f c' ++ [n] else f c'

/-- Run a sequence of `(category, ticket-number)` append events against a
category table; this is literally a `for` loop of `appendCat` appends. -/
def applyEvents (f : String → List Int) (evs : List (String × Int)) : String → List Int :=
  evs.foldl (fun g e => appendCat g e.1 e.2) f

/-- One entry of the fixed taxonomy baked into `pipeline/ai_analyzer.py`. -/
structure Category where
  category_id : String
  title : String
  description : String
deriving DecidableEq

/-- The `KNOWN_CATEGORIES` table of `pipeline/ai_analyzer.py` (19 entries). -/
def KNOWN_CATEGORIES : List Category := [
  ⟨"amnezia_config", "Amnezia / Third-Party Client Configurations",
    "User is trying to use Windscribe servers via the AmneziaVPN or AmneziaWG client (usually to bypass strict DPI like RKN in Russia). Tickets contain requests for raw WireGuard config files, questions on how to format configs for Amnezia, or error logs showing handshake timeouts or protocol failures in the Amnezia client."⟩,
  ⟨"standard_protocol_failures", "Standard Protocol Connection Failures",
    "User cannot connect using the native Windscribe app on standard networks. App is stuck on \x27Connecting...\x27 or immediately drops back to disconnected. Tickets often include debug logs, mention a specific ISP/mobile carrier, or note that the VPN works on mobile data but fails on home Wi-Fi."⟩,
  ⟨"restricted_network_censorship", "Restricted Network / Native App Censorship",
    "User is in a known restricted country (Russia, China, Iran) and the native app is completely blocked. Stealth, WStunnel, or all protocols are failing. Tickets often mention recent government block waves or include screenshots of the app endlessly spinning."⟩,
  ⟨"intermittent_disconnections", "Intermittent Disconnections",
    "VPN connects successfully but drops repeatedly. Connection dies when the phone screen locks, disconnects every few hours, or fails silently in the background while the UI still shows \x27Connected\x27."⟩,
  ⟨"slow_speeds_latency", "Slow Speeds / High Latency",
    "User is connected but experiencing terrible performance. Tickets usually name the specific server, list base internet speed vs VPN speed, and often include Speedtest screenshots or Linux MTR/traceroute logs complaining about high ping in games."⟩,
  ⟨"streaming_blocks", "Streaming Service Blocks",
    "User cannot access geo-restricted streaming content. Tickets name the specific platform (Netflix, BBC iPlayer, Amazon Prime), the specific Windscribe server, and usually include screenshots or text of the streaming service\x27s proxy error code."⟩,
  ⟨"website_geofencing_ip_bans", "Website / App Geofencing & IP Bans",
    "User is blocked from a non-streaming service (banks, crypto exchanges, betting apps, ChatGPT, or local government portals). Tickets contain screenshots of Cloudflare \x27Access Denied\x27 pages or complaints that the website has detected VPN usage or flagged the IP as high-risk. NOT for cases where the Windscribe app or browser extension itself is causing technical side-effects (audio failures, video black screens, WebRTC issues, crashes) — those are new_trend candidates."⟩,
  ⟨"split_tunneling_lan", "Split Tunneling / LAN Failures",
    "User is trying to route specific traffic inside or outside the VPN, and it isn\x27t working. Tickets list the exact app or IP they are trying to exclude, or complain about inability to cast to their TV, print to a wireless printer, or access a local NAS while Windscribe is on."⟩,
  ⟨"robert_false_positives", "R.O.B.E.R.T. Blocking (False Positives)",
    "A normal website or app is broken or failing to load assets. Tickets include the specific URL that is failing and explicitly mention that turning Windscribe off immediately fixes the website."⟩,
  ⟨"refund_requests", "Refund Requests",
    "User explicitly demands money back. Reason is typically: it didn\x27t bypass a block, they forgot to cancel a trial, or they bought the wrong plan. Tickets usually include order numbers, transaction IDs, or the email address tied to the payment."⟩,
  ⟨"payment_failures", "Payment Failures / Declines",
    "User is trying to purchase a plan but the payment gateway rejects them. Tickets include error codes from Paymentwall, Apple App Store, or Google Play, or state that their credit card was declined despite having funds."⟩,
  ⟨"crypto_uncredited", "Crypto Payment Uncredited",
    "User paid with cryptocurrency but their account is still on the Free tier. Tickets almost always include a blockchain transaction hash/ID, the specific coin used (BTC, ETH, XMR), and complaints that the funds left their wallet hours or days ago."⟩,
  ⟨"plan_feature_confusion", "Plan & Feature Confusion",
    "User bought a plan but is confused about what they see in the app. Tickets ask why they still see \x27Free\x27 servers with stars, why their custom plan doesn\x27t have unlimited data, or complain that a specific server they were looking for isn\x27t listed."⟩,
  ⟨"cancellation_autorenewal", "Cancellation / Auto-Renew Disputes",
    "User is angry about an automated charge or wants to stop future billing. Tickets ask how to find the cancel button on the website, or demand a reversal of a renewal charge they didn\x27t authorize."⟩,
  ⟨"lost_access_password_reset", "Lost Access / Password Resets",
    "User cannot log into their account. They forgot their password, no longer have access to the email used to sign up, or never linked an email to their account in the first place and are now locked out."⟩,
  ⟨"2fa_security_lockout", "2FA / Security Lockouts",
    "User is blocked from logging in due to account security features. Lost their phone or authenticator app, don\x27t have backup codes, or are stuck in an endless loop of CAPTCHAs on the login screen."⟩,
  ⟨"tv_lazy_login", "TV / Lazy Login Failures",
    "User is trying to log into a Smart TV app using the 6-digit code. App says \x27Invalid Code\x27 or \x27Code Expired\x27. Multiple codes generated on phone/computer with none of them working."⟩,
  ⟨"manual_config_generation", "Manual Config Generation Issues",
    "User is trying to download config files from the Windscribe website and it is failing. The \x27Generate Key\x27 button is missing, or they get an error saying \x27You have no WireGuard keypairs\x27."⟩,
  ⟨"static_ip_port_forwarding", "Static IP / Port Forwarding Difficulties",
    "User bought a Static IP but cannot get their ports to open. Tickets mention the specific port number, the application (qBittorrent, Plex), and often include screenshots from port-checker websites showing the port is \x27Closed\x27."⟩]

/-- The set of valid category ids built at the top of `analyze_tickets`. -/
def validCategoryIds : List String := KNOWN_CATEGORIES.map (fun c => c.category_id)

/-- The designated fallback category id (`FALLBACK_CATEGORY` in the source). -/
def FALLBACK_CATEGORY : String := "plan_feature_confusion"

/-- The `GENERIC_TITLES` set of forbidden trend titles from `analyze_tickets`.
Only membership is consumed, so the Python set literal becomes a list. -/
def GENERIC_TITLES : List String :=
  ["unknown", "unknown trend", "misc", "miscellaneous",
   "other", "general", "various", "feedback", "n/a"]

/-- An enriched ticket as handed to the analyzer: the fields of the Python
ticket dict that `build_analysis_prompt` / `analyze_tickets` read. -/
structure Ticket where
  number : Int
  subject : String
  first_message : String
deriving DecidableEq

/-- One entry of the raw reply's `new_trends` list.  `title` is `none` when the
key is absent or null; `ticket_numbers` entries are JSON numbers or strings;
the remaining fields (including any model-supplied `volume`) are never read by
the reconciler and pass through `{**trend, ...}` untouched. -/
structure TrendProposal where
  title : Option String
  ticket_numbers : List JNum
  volume : Option JNum
  description : Option String
  geographic_pattern : Option String
deriving DecidableEq

/-- The parsed raw model reply (`raw = json.loads(result_text)`): the fields
`analyze_tickets` reads via `raw.get(...)`, with JSON objects as association
lists whose keys are unique (JSON-object semantics). -/
structure RawReply where
  analysis_date : Option String
  category_summaries : List (String × String)
  new_trends : List TrendProposal
  classifications : List (String × String)
  ticket_summaries : List (String × String)
deriving DecidableEq

/-- An accepted trend in the final analysis: `{**trend, "ticket_numbers": nums,
"volume": volume}` — the original proposal plus the overridden deduplicated
ticket list and recomputed volume. -/
structure TrendResult where
  base : TrendProposal
  ticket_numbers : List JNum
  volume : Nat
deriving DecidableEq

/-- One entry of the final `known_categories` list. -/
structure CategoryResult where
  category_id : String
  title : String
  ticket_numbers : List Int
  volume : Nat
  summary : Option String
deriving DecidableEq

/-- The final analysis object assembled at the end of `analyze_tickets`. -/
structure Analysis where
  analysis_date : String
  total_tickets_analyzed : Nat
  known_categories : List CategoryResult
  new_trends : List TrendResult
  ticket_summaries : List (String × String)
deriving DecidableEq

/-- The `input_numbers` set: `{str(t["number"]) for t in tickets}`, kept as a
list in input order (only membership is consumed). -/
def inputTicketNumberStrs (tickets : List Ticket) : List String :=
  tickets.map (fun t => pyStrInt t.number)

/-- The `trend_ticket_numbers` set: `str(num)` for every ticket-number entry of
every proposed trend, kept as a list (only membership is consumed). -/
def trendTicketNumberStrs (raw : RawReply) : List String :=
  (raw.new_trends.map (fun tr => tr.ticket_numbers.map pyStrJ)).flatten

/-- The reconciler's `int(num_str)` at the call sites where `num_str` is known
to be a member of `input_numbers`, hence of the canonical form `str(t.number)`;
the `getD` default is dead code there (`pyIntStr_pyStrInt` below). -/
def intOfNumStr (s : String) : Int := (pyIntStr s).getD 0

/-- The `for num_str, cat_id in classifications.items()` loop of
`analyze_tickets`: state is (category table, `classified` set, `unrecognised`
list). -/
def classifyLoop (input trendNums valid : List String) :
    List (String × String) → (String → List Int) → List String → List String →
    (String → List Int) × List String × List String
  | [], f, cl, un => (f, cl, un)
  | (k, v) :: rest, f, cl, un =>
    if k ∉ input then classifyLoop input trendNums valid rest f cl un
    else if k ∈ trendNums then classifyLoop input trendNums valid rest f (insertStr cl k) un
    else if v ∈ valid then
      classifyLoop input trendNums valid rest (appendCat f v (intOfNumStr k)) (insertStr cl k) un
    else classifyLoop input trendNums valid rest f cl (un ++ [k])

/-- The rescue loop for a discarded trend: each (deduplicated) ticket-number
entry is reclassified via `classifications.get(str(num))` into its valid
category or the fallback category; `int(str(num))` raising `ValueError`
(modelled by `pyIntJ num = none`) aborts the whole analysis. -/
def rescueLoop (cls : List (String × String)) (valid : List String) :
    List JNum → (String → List Int) → Option (String → List Int)
  | [], f => some f
  | num :: rest, f =>
    match pyIntJ num with
    | none => none
    | some n =>
      match cls.lookup (pyStrJ num) with
      | some c =>
        if c ∈ valid then rescueLoop cls valid rest (appendCat f c n)
        else rescueLoop cls valid rest (appendCat f FALLBACK_CATEGORY n)
      | none => rescueLoop cls valid rest (appendCat f FALLBACK_CATEGORY n)

/-- Builds `{**trend, "ticket_numbers": nums, "volume": volume}` for an
accepted trend. -/
def mkTrendResult (tr : TrendProposal) (nums : List JNum) : TrendResult :=
  ⟨tr, nums, nums.length⟩

/-- The `for trend in trends_raw` validation loop of `analyze_tickets`:
deduplicate the proposal's ticket list, recompute volume, reject (and rescue)
on `volume < 2` or a generic/empty trimmed title, accept otherwise. -/
def trendLoop (cls : List (String × String)) (valid : List String) :
    List TrendProposal → (String → List Int) → List TrendResult →
    Option ((String → List Int) × List TrendResult)
  | [], f, acc => some (f, acc)
  | tr :: rest, f, acc =>
    let nums := pyDedup tr.ticket_numbers
    let title := pyStrip (tr.title.getD "")
    let volume := nums.length
    let title_is_generic := pyLower title ∈ GENERIC_TITLES ∨ title = ""
    if volume < 2 ∨ title_is_generic then
      match rescueLoop cls valid nums f with
      | none => none
      | some f' => trendLoop cls valid rest f' acc
    else trendLoop cls valid rest f (acc ++ [mkTrendResult tr nums])

/-- The category table after the three pre-trend phases of `analyze_tickets`
(source lines 441-492): the flat-classification loop, the unrecognised-id
fallback loop, and the completeness sweep over `missing`.  The Python `for`
loops of appends are folds (`applyEvents`); the iteration order of the
`missing` set, which Python leaves to hash order, is modelled as input order
(no claim depends on it: only membership and multiplicity of the final lists
do). -/
def preTrendTable (tickets : List Ticket) (raw : RawReply) : String → List Int :=
  let valid := validCategoryIds
  let trendNums := trendTicketNumberStrs raw
  let input := inputTicketNumberStrs tickets
  let st := classifyLoop input trendNums valid raw.classifications (fun _ => []) [] []
  let f2 := applyEvents st.1 (st.2.2.map (fun k => (FALLBACK_CATEGORY, intOfNumStr k)))
  let cl2 := st.2.2.foldl insertStr st.2.1
  let missing := (pyDedup input).filter (fun s => s ∉ cl2 ∧ s ∉ trendNums)
  applyEvents f2 (missing.map (fun s => (FALLBACK_CATEGORY, intOfNumStr s)))

/-- The reconciliation after the category-table phases: run the trend
validation loop and assemble the final analysis object. -/
def reconcile (tickets : List Ticket) (raw : RawReply) : Option Analysis :=
  match trendLoop raw.classifications validCategoryIds raw.new_trends
      (preTrendTable tickets raw) [] with
  | none => none
  | some (f4, newTrends) =>
    let knownCats := KNOWN_CATEGORIES.map (fun c =>
      let nums := pyDedup (f4 c.category_id)
      CategoryResult.mk c.category_id c.title nums nums.length
        (raw.category_summaries.lookup c.category_id))
    some ⟨raw.analysis_date.getD "", tickets.length, knownCats, newTrends,
      raw.ticket_summaries⟩

/-- `AIAnalyzer.analyze_tickets` with the model call abstracted to its parsed
reply: `none` on an empty batch (early return), on a reply that failed to parse
(not representable here: a `RawReply` is by construction parsed), or on an
exception inside reconciliation; otherwise the reconciled analysis. -/
def analyze_tickets (tickets : List Ticket) (raw : RawReply) : Option Analysis :=
  if tickets.isEmpty then none else reconcile tickets raw

/-- All ticket-number strings appearing in the category lists of an analysis,
in order. -/
def categoryNumberStrs (a : Analysis) : List String :=
  (a.known_categories.map (fun c => c.ticket_numbers.map pyStrInt)).flatten

/-- All ticket-number strings appearing in the accepted-trend lists of an
analysis, in order. -/
def trendNumberStrs (a : Analysis) : List String :=
  (a.new_trends.map (fun tr => tr.ticket_numbers.map pyStrJ)).flatten

/-- Every ticket-number string assigned anywhere in the final analysis:
taxonomy category lists first, then accepted trend lists. -/
def assignedNumberStrs (a : Analysis) : List String :=
  categoryNumberStrs a ++ trendNumberStrs a

/-- Python string slicing `s[:n]` (by code points). -/
def pySlice (s : String) (n : Nat) : String := ⟨s.data.take n⟩

/-- Python `sep.join(parts)` on character lists. -/
def joinSep (sep : List Char) : List (List Char) → List Char
  | [] => []
  | [x] => x
  | x :: rest => x ++ sep ++ joinSep sep rest

/-- Scanner for Python `s.replace(pat, repl)`: replace every non-overlapping
occurrence, scanning left to right, never rescanning an inserted replacement.
An empty pattern is never used by the source, and is a no-op here. -/
def replaceAllGo : Nat → List Char → List Char → List Char → List Char
  | 0, _, _, s => s
  | fuel + 1, pat, repl, s =>
    match s with
    | [] => []
    | c :: rest =>
      if pat ≠ [] ∧ pat.isPrefixOf (c :: rest) then
        repl ++ replaceAllGo fuel pat repl ((c :: rest).drop pat.length)
      else c :: replaceAllGo fuel pat repl rest

/-- Python `s.replace(pat, repl)` on character lists (fuel form of the scan;
`s.length` steps always suffice, see `replaceAll_cons`). -/
def replaceAll (pat repl s : List Char) : List Char := replaceAllGo s.length pat repl s

/-- Python `s.replace(pat, repl)` on strings. -/
def pyReplace (s pat repl : String) : String := ⟨replaceAll pat.data repl.data s.data⟩

/-- The `\x7b\x7bTICKET_COUNT\x7d\x7d` placeholder of the override template. -/
def PH_COUNT : List Char := "\x7b\x7bTICKET_COUNT\x7d\x7d".data

/-- The `\x7b\x7bALL_TICKET_NUMBERS\x7d\x7d` placeholder of the override
template. -/
def PH_NUMBERS : List Char := "\x7b\x7bALL_TICKET_NUMBERS\x7d\x7d".data

/-- The `\x7b\x7bTICKETS_FORMATTED\x7d\x7d` placeholder of the override
template. -/
def PH_FORMATTED : List Char := "\x7b\x7bTICKETS_FORMATTED\x7d\x7d".data

/-- The ticket block of the prompt: for each ticket,
`Ticket #N\nSubject: ...\nMessage: <first 600 chars>\n---`, joined by
newlines. -/
def ticketsFormattedChars (tickets : List Ticket) : List Char :=
  joinSep ['\n'] (tickets.map (fun t =>
    "Ticket #".data ++ pyStrIntChars t.number ++ "\nSubject: ".data ++ t.subject.data
      ++ "\nMessage: ".data ++ t.first_message.data.take 600 ++ "\n---".data))

/-- Python `str(all_ticket_numbers)` for the list of ticket numbers:
`[n1, n2, ...]`. -/
def allTicketNumbersChars (tickets : List Ticket) : List Char :=
  "[".data ++ joinSep ", ".data (tickets.map (fun t => pyStrIntChars t.number)) ++ "]".data

/-- The compact `categories_block` built (but never interpolated) by the
source: one `  "id": "title"` line per category. -/
def categoriesBlockChars : List Char :=
  joinSep ['\n'] (KNOWN_CATEGORIES.map (fun c =>
    "  \"".data ++ c.category_id.data ++ "\": \"".data ++ c.title.data ++ "\"".data))

/-- The `categories_detail` block: numbered id/title/description entries. -/
def categoriesDetailChars : List Char :=
  joinSep ['\n'] ((List.enumFrom 1 KNOWN_CATEGORIES).map (fun p =>
    pyStrNatChars p.1 ++ ". category_id=\"".data ++ p.2.category_id.data
      ++ "\"\n   title=\"".data ++ p.2.title.data
      ++ "\"\n   description: ".data ++ p.2.description.data))

/-- Built-in prompt text before the first `ticket_count` interpolation. -/
def builtinSeg1 : String := "You are TARS, an AI assistant for the Windscribe VPN support operations team.\n\n=== YOUR TASK (two passes) ===\n\nYou will receive "

/-- Built-in prompt text between the first `ticket_count` and
`categories_detail`. -/
def builtinSeg2 : String := " support tickets. Work in this order:\n\nPASS 1 — NEW TREND SCAN:\n  Scan ALL tickets first. Look for groups of 2+ tickets that share the same\n  specific root cause which is NOT described by any of the known categories below.\n  If you find such a group, mark those tickets as a new trend.\n\nPASS 2 — CLASSIFY THE REST:\n  Assign every remaining ticket to exactly one known category.\n  Write a 1-2 sentence summary for each category that has tickets.\n\n=== NEW TREND RULES ===\nA new trend is any recurring issue where >= 2 tickets share the same specific\nroot cause AND that root cause is not already described by a known category.\nThe PROBLEM TYPE itself matters — if no known category covers this KIND of\nproblem, it is a new trend regardless of surface-level keyword similarity.\n\nMost days will have 0-2 new trends. Zero is fine. So is two or three if the data supports it.\n\nConstraints:\n  - Minimum 2 tickets to form a trend\n  - NOT a catch-all (forbidden titles: \"Miscellaneous\", \"Other\", \"General\", \"Various\", \"Feedback\", \"Unrelated\", \"Unknown\")\n  - SPAM, vendor emails, off-topic emails are NOT trends — classify them into the closest known category\n\nA ticket only fits a known category if its core problem type genuinely matches\nthat category\x27s scope. When in doubt, prefer new_trend over forcing a bad fit.\n\n=== KNOWN CATEGORIES ===\n"

/-- Built-in prompt text between `categories_detail` and the second
`ticket_count` interpolation, including the JSON output-format example (its
braces written here as their escaped code points). -/
def builtinSeg3 : String := "\n\n=== HOW TO WRITE category_summaries ===\n\nSummaries must describe THIS SPECIFIC BATCH of tickets — what you actually saw in the data.\nDo NOT just rephrase the category definition.\n\nBAD (generic, just echoes the definition):\n  \"refund_requests\": \"Refund requests are from users who want their money back.\"\n  \"lost_access_password_reset\": \"Users cannot log into their account.\"\n\nGOOD (specific to this batch):\n  \"refund_requests\": \"9 refund requests, mostly from users in Iran and Russia blocked after the Jan wave. 3 cite expired Paymentwall transactions.\"\n  \"lost_access_password_reset\": \"14 lockouts — majority forgot their password; 3 signed up via Apple and lost the linked email.\"\n\nWrite 1-2 sentences. Mention specific numbers, regions, protocols, platforms, or error patterns you saw.\n\n=== OUTPUT FORMAT ===\n\nReturn ONLY valid JSON. No markdown, no commentary, no code fences.\n\nThe \"classifications\" object is the most important part. It MUST contain one entry for every\nticket number. The key is the ticket number as a string, the value is the category_id.\n\n\x7b\n  \"analysis_date\": \"YYYY-MM-DD\",\n  \"category_summaries\": \x7b\n    \"category_id\": \"specific 1-2 sentence summary describing THIS batch (not the category definition)\",\n    ... only for categories that have at least 1 ticket ...\n  \x7d,\n  \"new_trends\": [\n    \x7b\n      \"title\": \"Short specific name (e.g. \x27iOS 18.3 Crash on Launch\x27, \x27Turkey WireGuard Block Wave\x27)\",\n      \"ticket_numbers\": [integer ticket numbers — minimum 2],\n      \"volume\": integer,\n      \"description\": \"2-3 sentences: what is happening, probable root cause, why it is genuinely new\",\n      \"geographic_pattern\": \"Countries/regions affected, or null\"\n    \x7d\n  ],\n  \"classifications\": \x7b\n    \"TICKET_NUMBER\": \"category_id\",\n    ... one entry for EVERY ticket in the input ...\n  \x7d,\n  \"ticket_summaries\": \x7b\n    \"TICKET_NUMBER\": \"one-liner max 12 words — what is the user\x27s actual problem\",\n    ... one entry for EVERY ticket in the input ...\n  \x7d\n\x7d\n\nHOW TO WRITE ticket_summaries — describe what the USER actually needs, not the category name:\n  BAD: \"User has a connection problem\" / \"Payment issue\" / \"Refund request\"\n  GOOD: \"Can\x27t connect via WireGuard on Rostelecom ISP, Russia\" / \"Crypto payment sent 3 days ago, account still free\" / \"Forgot password, no longer has access to signup email\"\n\nCRITICAL — classifications AND ticket_summaries must each have EXACTLY "

/-- Built-in prompt text between the second `ticket_count` and
`all_ticket_numbers`. -/
def builtinSeg4 : String := " entries:\n"

/-- Built-in prompt text between `all_ticket_numbers` and the third
`ticket_count`. -/
def builtinSeg5 : String := "\n\n=== TICKETS TO CLASSIFY ("

/-- Built-in prompt text between the third `ticket_count` and
`tickets_formatted`. -/
def builtinSeg6 : String := " total) ===\n\n"

/-- The built-in two-phase prompt document: the f-string of
`build_analysis_prompt` with its six interpolations. -/
def builtinPromptChars (tickets : List Ticket) : List Char :=
  builtinSeg1.data ++ pyStrNatChars tickets.length
    ++ builtinSeg2.data ++ categoriesDetailChars
    ++ builtinSeg3.data ++ pyStrNatChars tickets.length
    ++ builtinSeg4.data ++ allTicketNumbersChars tickets
    ++ builtinSeg5.data ++ pyStrNatChars tickets.length
    ++ builtinSeg6.data ++ ticketsFormattedChars tickets

/-- The override-template argument of `build_analysis_prompt`.  `noTemplate`
is `None` (or any falsy value, such as the empty string, which the `if
template:` guard also routes to the built-in document); `strTemplate` is a
string from MongoDB; `badTemplate` is a truthy non-string value, whose
`.replace` chain raises and is caught by the `except` clause. -/
inductive PromptTemplate where
  | noTemplate
  | strTemplate (s : String)
  | badTemplate
deriving DecidableEq

/-- `AIAnalyzer.build_analysis_prompt`: with a truthy string template, apply
the three placeholder substitutions in source order (count, numbers, ticket
block); with no template, a falsy template, or a template whose substitution
raises, return the built-in document. -/
def build_analysis_prompt (tickets : List Ticket) (template : PromptTemplate) : String :=
  match template with
  | .strTemplate s =>
    if s.data = [] then ⟨builtinPromptChars tickets⟩
    else
      ⟨replaceAll PH_FORMATTED (ticketsFormattedChars tickets)
        (replaceAll PH_NUMBERS (allTicketNumbersChars tickets)
          (replaceAll PH_COUNT (pyStrNatChars tickets.length) s.data))⟩
  | _ => ⟨builtinPromptChars tickets⟩

/-- The fallback one-line summary `run_analysis` precomputes for a ticket: the
first 120 characters of the (already HTML-stripped) body, trimmed, unless that
snippet is empty or case-insensitively equals the subject, in which case the
subject. -/
def fallbackDetailFor (t : Ticket) : String :=
  let snippet := pyStrip (pySlice t.first_message 120)
  if snippet ≠ "" ∧ pyLower snippet ≠ pyLower t.subject then snippet else t.subject

/-- The `ticket_details` merge of `TARSPipeline.run_analysis` (lines 167-177):
per ticket, the AI-provided summary stripped of surrounding whitespace if that
is non-empty, else the precomputed fallback.  `first_message` holds the body
text already passed through `_strip_html`, as at that point in the source. -/
def ticketDetails (tickets : List Ticket) (aiSummaries : List (String × String)) :
    List (String × String) :=
  tickets.map (fun t =>
    let num := pyStrInt t.number
    let aiSummary := pyStrip ((aiSummaries.lookup num).getD "")
    (num, if aiSummary ≠ "" then aiSummary else fallbackDetailFor t))

/-- Proof view of the classification loop: the `(category, number)` appends it
performs, read off from the static branch conditions. -/
def classifyEvents (input trendNums valid : List String)
    (cls : List (String × String)) : List (String × Int) :=
  cls.filterMap (fun kv =>
    if kv.1 ∈ input ∧ kv.1 ∉ trendNums ∧ kv.2 ∈ valid
    then some (kv.2, intOfNumStr kv.1) else none)

/-- Proof view of the classification loop: the keys it adds to
`unrecognised`, in order. -/
def unrecognisedKeys (input trendNums valid : List String)
    (cls : List (String × String)) : List String :=
  cls.filterMap (fun kv =>
    if kv.1 ∈ input ∧ kv.1 ∉ trendNums ∧ kv.2 ∉ valid then some kv.1 else none)

/-- The category a rescued trend ticket is appended to: its entry in the flat
classification mapping when that is a valid id, else the fallback category. -/
def rescueTarget (cls : List (String × String)) (valid : List String) (j : JNum) : String :=
  match cls.lookup (pyStrJ j) with
  | some c => if c ∈ valid then c else FALLBACK_CATEGORY
  | none => FALLBACK_CATEGORY

/-- Proof view of the rescue loop: its append events (values via `getD`, which
coincides with the true `int()` value whenever that conversion succeeds). -/
def rescueEvents (cls : List (String × String)) (valid : List String)
    (nums : List JNum) : List (String × Int) :=
  nums.map (fun j => (rescueTarget cls valid j, (pyIntJ j).getD 0))

/-- The rejection condition of the trend-validation loop: deduplicated volume
below two, or a trimmed title that is generic or empty. -/
def trendRejected (tr : TrendProposal) : Prop :=
  (pyDedup tr.ticket_numbers).length < 2 ∨
    (pyLower (pyStrip (tr.title.getD "")) ∈ GENERIC_TITLES ∨ pyStrip (tr.title.getD "") = "")

instance (tr : TrendProposal) : Decidable (trendRejected tr) := by
  unfold trendRejected; infer_instance

/-- Proof view of the trend-validation loop: all rescue append events of the
rejected trends, in order. -/
def trendEvents (cls : List (String × String)) (valid : List String)
    (trends : List TrendProposal) : List (String × Int) :=
  ((trends.filter (fun tr => decide (trendRejected tr))).map
    (fun tr => rescueEvents cls valid (pyDedup tr.ticket_numbers))).flatten

/-- Proof view of the trend-validation loop: the accepted trends, in order. -/
def acceptedTrends (trends : List TrendProposal) : List TrendResult :=
  (trends.filter (fun tr => decide (¬ trendRejected tr))).map
    (fun tr => mkTrendResult tr (pyDedup tr.ticket_numbers))

/-- Proof view: the fallback append events of the unrecognised-id loop. -/
def classifyFallbackEvents (tickets : List Ticket) (raw : RawReply) : List (String × Int) :=
  (unrecognisedKeys (inputTicketNumberStrs tickets) (trendTicketNumberStrs raw)
      validCategoryIds raw.classifications).map
    (fun k => (FALLBACK_CATEGORY, intOfNumStr k))

/-- Proof view of the `missing` set: distinct input numbers with no entry at
all in the flat classification mapping and not claimed by any proposed
trend. -/
def missingKeys (tickets : List Ticket) (raw : RawReply) : List String :=
  (pyDedup (inputTicketNumberStrs tickets)).filter
    (fun s => decide ((∀ kv ∈ raw.classifications, kv.1 ≠ s)
      ∧ s ∉ trendTicketNumberStrs raw))

/-- Proof view: the fallback append events of the completeness sweep. -/
def missingEvents (tickets : List Ticket) (raw : RawReply) : List (String × Int) :=
  (missingKeys tickets raw).map (fun s => (FALLBACK_CATEGORY, intOfNumStr s))

/-- Proof view: all append events of the three pre-trend phases, in order. -/
def preTrendEvents (tickets : List Ticket) (raw : RawReply) : List (String × Int) :=
  classifyEvents (inputTicketNumberStrs tickets) (trendTicketNumberStrs raw)
      validCategoryIds raw.classifications
    ++ classifyFallbackEvents tickets raw ++ missingEvents tickets raw

/-- A trend proposal with only title and ticket numbers populated. -/
def mkProposal (title : Option String) (nums : List JNum) : TrendProposal :=
  ⟨title, nums, none, none, none⟩

/-- The default analysis used to name concrete reconciler outputs. -/
def emptyAnalysis : Analysis := ⟨"", 0, [], [], []⟩

/-- Concrete batch for the trend-admission evaluation. -/
def exTickets2 : List Ticket :=
  [⟨101, "s1", "m1"⟩, ⟨102, "s2", "m2"⟩, ⟨103, "s3", "m3"⟩]

/-- Concrete raw reply with one accepted and one rejected trend. -/
def exRaw2 : RawReply :=
  ⟨some "2025-01-01", [],
    [mkProposal (some " Turkey Block Wave ") [.int 102, .int 103, .int 103],
     mkProposal (some "Miscellaneous") [.int 101]],
    [("101", "refund_requests")], []⟩

/-- The reconciled analysis of the trend-admission evaluation. -/
def exAnalysis2 : Analysis := (analyze_tickets exTickets2 exRaw2).getD emptyAnalysis

/-- Concrete batch for the determinism evaluation. -/
def exTickets6 : List Ticket := [⟨11, "s", "m"⟩]

/-- Concrete raw reply for the determinism evaluation. -/
def exRaw6 : RawReply := ⟨none, [], [], [("11", "streaming_blocks")], []⟩

/-- The digit scanner is fuel-irrelevant above its argument. -/
theorem natToRevDigitsGo_irrel (fuel1 : Nat) :
    ∀ (n fuel2 : Nat), n < fuel1 → n < fuel2 →
      natToRevDigitsGo fuel1 n = natToRevDigitsGo fuel2 n := by
  induction fuel1 with
  | zero => intro n fuel2 h1 h2; omega
  | succ f ih =>
    intro n fuel2 h1 h2
    cases fuel2 with
    | zero => omega
    | succ g =>
      simp only [natToRevDigitsGo]
      by_cases h : n < 10
      · rw [if_pos h, if_pos h]
      · rw [if_neg h, if_neg h]
        congr 1
        exact ih (n / 10) g (by omega) (by omega)

/-- Unfolding equation of the digit list. -/
theorem natToRevDigits_unfold (n : Nat) :
    natToRevDigits n
      = if n < 10 then [Nat.digitChar n]
        else Nat.digitChar (n % 10) :: natToRevDigits (n / 10) := by
  unfold natToRevDigits
  simp only [natToRevDigitsGo]
  by_cases h : n < 10
  · rw [if_pos h, if_pos h]
  · rw [if_neg h, if_neg h]
    congr 1
    exact natToRevDigitsGo_irrel n (n / 10) (n / 10 + 1) (by omega) (by omega)

/-- The replace scanner is fuel-irrelevant above the text length. -/
theorem replaceAllGo_irrel (pat repl : List Char) (fuel1 : Nat) :
    ∀ (s : List Char) (fuel2 : Nat), s.length ≤ fuel1 → s.length ≤ fuel2 →
      replaceAllGo fuel1 pat repl s = replaceAllGo fuel2 pat repl s := by
  induction fuel1 with
  | zero =>
    intro s fuel2 h1 h2
    have hs : s = [] := List.eq_nil_of_length_eq_zero (by omega)
    subst hs
    cases fuel2 <;> simp [replaceAllGo]
  | succ f ih =>
    intro s fuel2 h1 h2
    cases s with
    | nil => cases fuel2 <;> simp [replaceAllGo]
    | cons c rest =>
      cases fuel2 with
      | zero => simp at h2
      | succ g =>
        simp only [replaceAllGo]
        by_cases hc : pat ≠ [] ∧ pat.isPrefixOf (c :: rest)
        · rw [if_pos hc, if_pos hc]
          congr 1
          apply ih
          · simp only [List.length_drop, List.length_cons]
            have : 0 < pat.length := List.length_pos.mpr hc.1
            simp only [List.length_cons] at h1
            omega
          · simp only [List.length_drop, List.length_cons]
            have : 0 < pat.length := List.length_pos.mpr hc.1
            simp only [List.length_cons] at h2
            omega
        · rw [if_neg hc, if_neg hc]
          congr 1
          apply ih
          · simp only [List.length_cons] at h1; omega
          · simp only [List.length_cons] at h2; omega

/-- The replace scan of the empty text. -/
theorem replaceAll_nil (pat repl : List Char) : replaceAll pat repl [] = [] := rfl

/-- Unfolding equation of the replace scan. -/
theorem replaceAll_cons (pat repl : List Char) (c : Char) (rest : List Char) :
    replaceAll pat repl (c :: rest)
      = if pat ≠ [] ∧ pat.isPrefixOf (c :: rest) then
          repl ++ replaceAll pat repl ((c :: rest).drop pat.length)
        else c :: replaceAll pat repl rest := by
  unfold replaceAll
  simp only [List.length_cons, replaceAllGo]
  by_cases hc : pat ≠ [] ∧ pat.isPrefixOf (c :: rest)
  · rw [if_pos hc, if_pos hc]
    congr 1
    apply replaceAllGo_irrel
    · simp only [List.length_drop, List.length_cons]
      have : 0 < pat.length := List.length_pos.mpr hc.1
      omega
    · exact Nat.le_refl _
  · rw [if_neg hc, if_neg hc]

/-- Concrete batch for the unknown-category evaluation. -/
def exTickets3 : List Ticket := [⟨7, "s7", "m7"⟩, ⟨8, "s8", "m8"⟩]

/-- Concrete raw reply whose first classification uses an invented id. -/
def exRaw3 : RawReply :=
  ⟨none, [], [], [("7", "made_up_category"), ("8", "refund_requests")], []⟩

/-- The reconciled analysis of the unknown-category evaluation. -/
def exAnalysis3 : Analysis := (analyze_tickets exTickets3 exRaw3).getD emptyAnalysis

/-- Concrete batch for the completeness-sweep evaluation. -/
def exTickets4 : List Ticket := [⟨21, "s", "m"⟩, ⟨22, "s", "m"⟩, ⟨23, "s", "m"⟩]

/-- Concrete raw reply omitting tickets 22 and 23 entirely. -/
def exRaw4 : RawReply := ⟨none, [], [], [("21", "refund_requests")], []⟩

/-- The reconciled analysis of the completeness-sweep evaluation. -/
def exAnalysis4 : Analysis := (analyze_tickets exTickets4 exRaw4).getD emptyAnalysis

/-- Concrete batch for the failure-semantics counterexample. -/
def exTickets5 : List Ticket := [⟨1, "s", "m"⟩]

/-- Concrete parsed reply whose only flaw is a non-numeric ticket-number entry
inside a trend that gets discarded (volume 1). -/
def exRaw5 : RawReply :=
  ⟨none, [], [mkProposal (some "Stealth Handshake Failures") [.str "abc"]], [], []⟩

/-- Concrete batch for the failure-semantics witness. -/
def exTickets5w : List Ticket := [⟨9, "s", "m"⟩]

/-- Concrete reply whose trend entries all convert to integers. -/
def exRaw5w : RawReply :=
  ⟨none, [], [mkProposal (some "Misc") [.int 9, .str "10"]], [], []⟩

/-- Concrete batch for the per-ticket summary evaluation. -/
def exTickets9 : List Ticket := [⟨7, "Login broken", "User cannot log in to the app"⟩]

/-- Model-provided summaries with surrounding whitespace. -/
def exAi9 : List (String × String) := [("7", " Cannot log in ")]

/-- A segment of an override template: literal text or one of the three named
placeholders. -/
inductive Seg where
  | lit (s : String)
  | count
  | numbers
  | formatted
deriving DecidableEq

/-- The template text of a segment. -/
def segText : Seg → List Char
  | .lit s => s.data
  | .count => PH_COUNT
  | .numbers => PH_NUMBERS
  | .formatted => PH_FORMATTED

/-- The template text denoted by a segment list. -/
def shapeTemplate (L : List Seg) : List Char := (L.map segText).flatten

/-- The substituted text of a segment for a given ticket batch: literal text
verbatim, placeholders replaced by their computed values. -/
def segSubst (tickets : List Ticket) : Seg → List Char
  | .lit s => s.data
  | .count => pyStrNatChars tickets.length
  | .numbers => allTicketNumbersChars tickets
  | .formatted => ticketsFormattedChars tickets

/-- The fully substituted text of a segment list. -/
def shapeSubst (tickets : List Ticket) (L : List Seg) : List Char :=
  (L.map (segSubst tickets)).flatten

/-- A literal segment is admissible when it contains no opening brace (so it
can never start a placeholder occurrence). -/
def segLitOk : Seg → Bool
  | .lit s => !(s.data.contains '\x7b')
  | _ => true

/-- A block of an intermediate substitution stage: plain text free of opening
braces, the pattern being substituted this stage, or another placeholder's
text. -/
inductive Blk where
  | chunk (s : List Char)
  | target
  | other (pb : List Char)
deriving DecidableEq

/-- The text of a block before the stage's substitution. -/
def blkText (pat : List Char) : Blk → List Char
  | .chunk s => s
  | .target => pat
  | .other pb => pb

/-- The text of a block after the stage's substitution. -/
def blkOut (repl : List Char) : Blk → List Char
  | .chunk s => s
  | .target => repl
  | .other pb => pb

/-- Decidable mismatch condition: matching `pat` at any start offset inside
`pb` fails within `pb` itself, so no occurrence of `pat` in `pb ++ rest` can
start inside `pb`, whatever `rest` is. -/
def noTailMatch (pat pb : List Char) : Prop :=
  ∀ i, i < pb.length →
    ∃ j, j < pat.length ∧ i + j < pb.length ∧ pb[i+j]? ≠ pat[j]?

instance (pat pb : List Char) : Decidable (noTailMatch pat pb) := by
  unfold noTailMatch; infer_instance

/-- Stage-one blocks: substituting the ticket-count placeholder. -/
def segBlk1 : Seg → Blk
  | .lit s => .chunk s.data
  | .count => .target
  | .numbers => .other PH_NUMBERS
  | .formatted => .other PH_FORMATTED

/-- Stage-two blocks: substituting the ticket-numbers placeholder. -/
def segBlk2 (tickets : List Ticket) : Seg → Blk
  | .lit s => .chunk s.data
  | .count => .chunk (pyStrNatChars tickets.length)
  | .numbers => .target
  | .formatted => .other PH_FORMATTED

/-- Stage-three blocks: substituting the formatted-tickets placeholder. -/
def segBlk3 (tickets : List Ticket) : Seg → Blk
  | .lit s => .chunk s.data
  | .count => .chunk (pyStrNatChars tickets.length)
  | .numbers => .chunk (allTicketNumbersChars tickets)
  | .formatted => .target

/-- Concrete override-template shape containing all three placeholders. -/
def exSegs7 : List Seg :=
  [.lit "Classify ", .count, .lit " tickets ", .numbers, .lit " via ", .formatted,
   .lit " done"]

/-- Concrete batch for the override-template evaluation. -/
def exTickets7 : List Ticket := [⟨31, "Subj", "Body"⟩, ⟨32, "Subj2", "Body2"⟩]

/-- Proof view: the keys the classification loop assigns to valid categories. -/
def classifyKeys (input trendNums valid : List String)
    (cls : List (String × String)) : List String :=
  cls.filterMap (fun kv =>
    if kv.1 ∈ input ∧ kv.1 ∉ trendNums ∧ kv.2 ∈ valid then some kv.1 else none)

/-- The `int()` value of a trend ticket-number entry as the rescue loop
computes it (total form; coincides with the raised-on-failure version wherever
that succeeds). -/
def valJ (j : JNum) : Int := (pyIntJ j).getD 0

/-- Concrete batch for the partition counterexample. -/
def exTickets1 : List Ticket := [⟨1, "s", "m"⟩]

/-- Concrete raw reply proposing a trend made of two ticket numbers outside
the batch. -/
def exRaw1 : RawReply :=
  ⟨none, [], [mkProposal (some "Login Crash Wave") [.int 5, .int 6]], [], []⟩

/-- Concrete batch for the partition witness. -/
def exTickets1w : List Ticket := [⟨41, "s", "m"⟩, ⟨42, "s", "m"⟩, ⟨43, "s", "m"⟩, ⟨44, "s", "m"⟩]

/-- Concrete raw reply for the partition witness: one accepted trend, one
rejected trend, one valid classification, one invented id, one omitted
ticket. -/
def exRaw1w : RawReply :=
  ⟨none, [],
    [mkProposal (some "Kyiv Relay Outage") [.int 41, .int 42],
     mkProposal (some "Misc") [.int 43]],
    [("43", "refund_requests"), ("44", "bogus_id")], []⟩

/-- The reconciled analysis of the partition witness. -/
def exAnalysis1w : Analysis := (analyze_tickets exTickets1w exRaw1w).getD emptyAnalysis

/-- Membership in `pyDedupFrom`: in the tail and not already seen. -/
theorem mem_pyDedupFrom [DecidableEq α] (a : α) (l : List α) :
    ∀ seen, a ∈ pyDedupFrom seen l ↔ a ∈ l ∧ a ∉ seen := by
  induction l with
  | nil => intro seen; simp [pyDedupFrom]
  | cons x rest ih =>
    intro seen
    simp only [pyDedupFrom]
    by_cases hx : x ∈ seen
    · rw [if_pos hx, ih]
      simp only [List.mem_cons]
      constructor
      · rintro ⟨h1, h2⟩; exact ⟨Or.inr h1, h2⟩
      · rintro ⟨h1 | h1, h2⟩
        · subst h1; exact absurd hx h2
        · exact ⟨h1, h2⟩
    · rw [if_neg hx]
      by_cases ha : a = x
      · subst ha; simp [hx]
      · simp only [List.mem_cons, ha, false_or]
        rw [ih]
        simp [List.mem_cons, ha]

/-- Deduplication preserves membership. -/
theorem mem_pyDedup [DecidableEq α] (a : α) (l : List α) : a ∈ pyDedup l ↔ a ∈ l := by
  unfold pyDedup; rw [mem_pyDedupFrom]; simp

/-- The deduplicated list has no duplicates. -/
theorem nodup_pyDedupFrom [DecidableEq α] (l : List α) :
    ∀ seen, (pyDedupFrom seen l).Nodup := by
  induction l with
  | nil => intro seen; simp [pyDedupFrom]
  | cons x rest ih =>
    intro seen
    simp only [pyDedupFrom]
    by_cases hx : x ∈ seen
    · rw [if_pos hx]; exact ih seen
    · rw [if_neg hx]
      refine List.nodup_cons.mpr ⟨?_, ih _⟩
      intro hmem
      exact ((mem_pyDedupFrom x rest (x :: seen)).mp hmem).2 (List.mem_cons_self _ _)

/-- The deduplicated list has no duplicates. -/
theorem nodup_pyDedup [DecidableEq α] (l : List α) : (pyDedup l).Nodup :=
  nodup_pyDedupFrom l []

/-- Multiplicity in the deduplicated list: one per distinct member. -/
theorem count_pyDedup [DecidableEq α] (l : List α) (a : α) :
    (pyDedup l).count a = if a ∈ l then 1 else 0 := by
  by_cases h : a ∈ l
  · rw [if_pos h]
    exact List.count_eq_one_of_mem (nodup_pyDedup l) ((mem_pyDedup a l).mpr h)
  · rw [if_neg h]
    exact List.count_eq_zero_of_not_mem (fun hm => h ((mem_pyDedup a l).mp hm))

/-- Unfolding a run of append events at one category: the original list
followed by the values of this category's events, in order. -/
theorem applyEvents_apply (evs : List (String × Int)) :
    ∀ (f : String → List Int) (c : String),
      applyEvents f evs c
        = f c ++ evs.filterMap (fun e => if e.1 = c then some e.2 else none) := by
  induction evs with
  | nil => intro f c; simp [applyEvents]
  | cons e rest ih =>
    intro f c
    simp only [applyEvents, List.foldl_cons] at *
    rw [ih, List.filterMap_cons]
    by_cases h : e.1 = c
    · rw [if_pos h]
      simp only [appendCat]
      rw [if_pos h.symm]
      simp [List.append_assoc]
    · rw [if_neg h]
      simp only [appendCat]
      rw [if_neg (fun hh => h hh.symm)]

/-- Two successive event runs concatenate. -/
theorem applyEvents_append (f : String → List Int) (a b : List (String × Int)) :
    applyEvents (applyEvents f a) b = applyEvents f (a ++ b) := by
  simp [applyEvents, List.foldl_append]

/-- Every `Nat.digitChar` of a value below ten is a decimal digit. -/
theorem digitChar_mem_decimalDigits : ∀ m : Fin 10, Nat.digitChar m.val ∈ decimalDigits := by
  decide

/-- `digitVal` inverts `Nat.digitChar` below ten. -/
theorem digitVal_digitChar : ∀ m : Fin 10, digitVal (Nat.digitChar m.val) = some m.val := by
  decide

/-- All characters of the decimal expansion are decimal digits. -/
theorem mem_natToRevDigits (n : Nat) : ∀ c ∈ natToRevDigits n, c ∈ decimalDigits := by
  induction n using Nat.strong_induction_on with
  | _ n ih =>
    rw [natToRevDigits_unfold]
    split
    · next h =>
      intro c hc
      simp only [List.mem_singleton] at hc
      subst hc
      exact digitChar_mem_decimalDigits ⟨n, h⟩
    · next h =>
      intro c hc
      rcases List.mem_cons.mp hc with h1 | h1
      · subst h1
        exact digitChar_mem_decimalDigits ⟨n % 10, Nat.mod_lt _ (by omega)⟩
      · exact ih (n / 10) (Nat.div_lt_self (by omega) (by omega)) c h1

/-- Decimal digits are not whitespace. -/
theorem decimalDigit_not_ws : ∀ c ∈ decimalDigits, c.isWhitespace = false := by decide

/-- The accumulating parser distributes over append. -/
theorem parseDigitsFrom_append (l1 l2 : List Char) :
    ∀ acc, parseDigitsFrom acc (l1 ++ l2)
      = match parseDigitsFrom acc l1 with
        | some v => parseDigitsFrom v l2
        | none => none := by
  induction l1 with
  | nil => intro acc; simp [parseDigitsFrom]
  | cons c rest ih =>
    intro acc
    simp only [List.cons_append, parseDigitsFrom]
    cases hd : digitVal c with
    | some d => exact ih _
    | none => rfl

/-- Parsing the decimal expansion of `n` starting from accumulator `acc`. -/
theorem parseDigitsFrom_pyStrNat (n : Nat) :
    ∀ acc, parseDigitsFrom acc (pyStrNatChars n)
      = some (acc * 10 ^ (natToRevDigits n).length + n) := by
  induction n using Nat.strong_induction_on with
  | _ n ih =>
    intro acc
    by_cases h : n < 10
    · unfold pyStrNatChars
      rw [natToRevDigits_unfold, if_pos h]
      simp only [List.reverse_singleton, List.length_cons, List.length_nil,
        parseDigitsFrom]
      rw [digitVal_digitChar ⟨n, h⟩]
      simp [parseDigitsFrom]
    · unfold pyStrNatChars
      conv_lhs => rw [natToRevDigits_unfold, if_neg h]
      have hlen : (natToRevDigits n).length = (natToRevDigits (n / 10)).length + 1 := by
        conv_lhs => rw [natToRevDigits_unfold, if_neg h]
        simp
      rw [List.reverse_cons, parseDigitsFrom_append]
      rw [show (natToRevDigits (n / 10)).reverse = pyStrNatChars (n / 10) from rfl]
      rw [ih (n / 10) (Nat.div_lt_self (by omega) (by omega)) acc]
      simp only [parseDigitsFrom]
      rw [digitVal_digitChar ⟨n % 10, Nat.mod_lt _ (by omega)⟩]
      simp only [parseDigitsFrom, hlen]
      congr 1
      have hdm : n / 10 * 10 + n % 10 = n := by omega
      rw [pow_succ]
      generalize (10 : Nat) ^ (natToRevDigits (n / 10)).length = P
      calc (acc * P + n / 10) * 10 + n % 10
        = acc * (P * 10) + (n / 10 * 10 + n % 10) := by ring
        _ = acc * (P * 10) + n := by rw [hdm]

/-- The decimal expansion of `n` is never empty. -/
theorem pyStrNatChars_ne_nil (n : Nat) : pyStrNatChars n ≠ [] := by
  unfold pyStrNatChars
  rw [natToRevDigits_unfold]
  split <;> simp

/-- Parsing the characters of `str(n)` recovers `n`. -/
theorem parseDigits_pyStrNat (n : Nat) : parseDigits (pyStrNatChars n) = some n := by
  unfold parseDigits
  rw [if_neg (by simpa [List.isEmpty_iff] using pyStrNatChars_ne_nil n)]
  rw [parseDigitsFrom_pyStrNat]
  simp

/-- Characters of `str(i)` are digits or a leading minus sign. -/
theorem stripChars_pyStrIntChars (i : Int) : stripChars (pyStrIntChars i) = pyStrIntChars i := by
  have hnw : ∀ c ∈ pyStrIntChars i, c.isWhitespace = false := by
    intro c hc
    unfold pyStrIntChars at hc
    split at hc
    · rcases List.mem_cons.mp hc with h1 | h1
      · subst h1; decide
      · exact decimalDigit_not_ws c (mem_natToRevDigits _ c (List.mem_reverse.mp h1))
    · exact decimalDigit_not_ws c (mem_natToRevDigits _ c (List.mem_reverse.mp hc))
  unfold stripChars
  have h1 : (pyStrIntChars i).dropWhile Char.isWhitespace = pyStrIntChars i := by
    cases hl : pyStrIntChars i with
    | nil => simp
    | cons c rest =>
      rw [List.dropWhile_cons, if_neg]
      simp [hnw c (hl ▸ List.mem_cons_self c rest)]
  rw [h1]
  have h2 : (pyStrIntChars i).reverse.dropWhile Char.isWhitespace = (pyStrIntChars i).reverse := by
    cases hl : (pyStrIntChars i).reverse with
    | nil => simp
    | cons c rest =>
      rw [List.dropWhile_cons, if_neg]
      have : c ∈ (pyStrIntChars i).reverse := hl ▸ List.mem_cons_self c rest
      simp [hnw c (List.mem_reverse.mp this)]
  rw [h2, List.reverse_reverse]

/-- Round trip: Python `int(str(i))` recovers `i`.  In particular the
`getD`-default in `intOfNumStr` is dead at every call site where the argument
is a canonical `str(t.number)` form. -/
theorem pyIntStr_pyStrInt (i : Int) : pyIntStr (pyStrInt i) = some i := by
  unfold pyIntStr pyStrInt pyIntChars
  simp only [String.data]
  rw [stripChars_pyStrIntChars]
  by_cases h : i < 0
  · rw [show pyStrIntChars i = '-' :: pyStrNatChars i.natAbs from by
      unfold pyStrIntChars; rw [if_pos h]]
    simp only [pyIntSigned, reduceIte]
    rw [parseDigits_pyStrNat]
    simp only [Option.map_some', Int.ofNat_eq_coe, Option.some.injEq]
    omega
  · rw [show pyStrIntChars i = pyStrNatChars i.toNat from by
      unfold pyStrIntChars; rw [if_neg h]]
    cases hc : pyStrNatChars i.toNat with
    | nil => exact absurd hc (pyStrNatChars_ne_nil _)
    | cons c rest =>
      have hcm : c ∈ pyStrNatChars i.toNat := hc ▸ List.mem_cons_self c rest
      have hcd : c ∈ decimalDigits :=
        mem_natToRevDigits _ c (List.mem_reverse.mp hcm)
      have hc1 : c ≠ '-' := by
        intro he; subst he; exact absurd hcd (by decide)
      have hc2 : c ≠ '+' := by
        intro he; subst he; exact absurd hcd (by decide)
      simp only [pyIntSigned, if_neg hc1, if_neg hc2]
      rw [← hc, parseDigits_pyStrNat]
      simp only [Option.map_some', Int.ofNat_eq_coe, Option.some.injEq]
      omega

/-- Injectivity of the canonical decimal form. -/
theorem pyStrInt_injective : Function.Injective pyStrInt := by
  intro a b hab
  have ha := pyIntStr_pyStrInt a
  rw [hab, pyIntStr_pyStrInt b] at ha
  exact (Option.some_inj.mp ha).symm

/-- On an integer entry, the rescue conversion `int(str(num))` succeeds and
returns the integer. -/
theorem pyIntJ_int (n : Int) : pyIntJ (JNum.int n) = some n := by
  unfold pyIntJ pyStrJ
  exact pyIntStr_pyStrInt n

/-- On canonical number strings, `intOfNumStr` is the inverse of `str`. -/
theorem intOfNumStr_pyStrInt (i : Int) : intOfNumStr (pyStrInt i) = i := by
  unfold intOfNumStr
  rw [pyIntStr_pyStrInt]
  rfl

/-- Membership in the model of `set.add`. -/
theorem mem_insertStr (l : List String) (k s : String) :
    s ∈ insertStr l k ↔ s ∈ l ∨ s = k := by
  unfold insertStr
  split
  · next h =>
    constructor
    · exact Or.inl
    · rintro (h1 | h1)
      · exact h1
      · subst h1; exact h
  · simp

/-- Membership after folding `set.add` over a list of keys. -/
theorem mem_foldl_insertStr (un : List String) :
    ∀ (cl : List String) (s : String), s ∈ un.foldl insertStr cl ↔ s ∈ cl ∨ s ∈ un := by
  induction un with
  | nil => intro cl s; simp
  | cons k rest ih =>
    intro cl s
    simp only [List.foldl_cons]
    rw [ih, mem_insertStr]
    simp only [List.mem_cons]
    tauto

/-- The classification loop's category table is its initial table with the
classify events appended. -/
theorem classifyLoop_fst (input trendNums valid : List String) :
    ∀ (cls : List (String × String)) (f : String → List Int) (cl un : List String),
      (classifyLoop input trendNums valid cls f cl un).1
        = applyEvents f (classifyEvents input trendNums valid cls) := by
  intro cls
  induction cls with
  | nil => intro f cl un; simp [classifyLoop, classifyEvents, applyEvents]
  | cons kv rest ih =>
    intro f cl un
    obtain ⟨k, v⟩ := kv
    simp only [classifyLoop, classifyEvents, List.filterMap_cons]
    by_cases h1 : k ∈ input
    · rw [if_neg (by simpa using h1)]
      by_cases h2 : k ∈ trendNums
      · rw [if_pos h2]
        rw [if_neg (by simp [h2])]
        exact ih _ _ _
      · rw [if_neg h2]
        by_cases h3 : v ∈ valid
        · rw [if_pos h3]
          rw [if_pos ⟨h1, h2, h3⟩]
          rw [ih _ _ _]
          rfl
        · rw [if_neg h3]
          rw [if_neg (by simp [h3])]
          exact ih _ _ _
    · rw [if_pos (by simpa using h1)]
      rw [if_neg (by simp [h1])]
      exact ih _ _ _

/-- The classification loop's `unrecognised` output is its initial list with
the unrecognised keys appended. -/
theorem classifyLoop_unrec (input trendNums valid : List String) :
    ∀ (cls : List (String × String)) (f : String → List Int) (cl un : List String),
      (classifyLoop input trendNums valid cls f cl un).2.2
        = un ++ unrecognisedKeys input trendNums valid cls := by
  intro cls
  induction cls with
  | nil => intro f cl un; simp [classifyLoop, unrecognisedKeys]
  | cons kv rest ih =>
    intro f cl un
    obtain ⟨k, v⟩ := kv
    simp only [classifyLoop, unrecognisedKeys, List.filterMap_cons]
    by_cases h1 : k ∈ input
    · rw [if_neg (by simpa using h1)]
      by_cases h2 : k ∈ trendNums
      · rw [if_pos h2]
        rw [if_neg (by simp [h2])]
        exact ih _ _ _
      · rw [if_neg h2]
        by_cases h3 : v ∈ valid
        · rw [if_pos h3]
          rw [if_neg (by simp [h2, h3])]
          exact ih _ _ _
        · rw [if_neg h3]
          rw [if_pos ⟨h1, h2, h3⟩]
          rw [ih _ _ _]
          simp [unrecognisedKeys]
    · rw [if_pos (by simpa using h1)]
      rw [if_neg (by simp [h1])]
      exact ih _ _ _

/-- Membership in the classification loop's `classified` set: already present,
or a key of the mapping that is an input number and was either skipped as a
trend ticket or assigned to a valid category. -/
theorem classifyLoop_classified (input trendNums valid : List String) :
    ∀ (cls : List (String × String)) (f : String → List Int) (cl un : List String) (s : String),
      s ∈ (classifyLoop input trendNums valid cls f cl un).2.1
        ↔ s ∈ cl ∨ ∃ v, (s, v) ∈ cls ∧ s ∈ input ∧ (s ∈ trendNums ∨ v ∈ valid) := by
  intro cls
  induction cls with
  | nil => intro f cl un s; simp [classifyLoop]
  | cons kv rest ih =>
    intro f cl un s
    obtain ⟨k, v⟩ := kv
    simp only [classifyLoop]
    by_cases h1 : k ∈ input
    · rw [if_neg (by simpa using h1)]
      by_cases h2 : k ∈ trendNums
      · rw [if_pos h2, ih]
        rw [mem_insertStr]
        constructor
        · rintro ((hs | hs) | ⟨w, hw, hw2, hw3⟩)
          · exact Or.inl hs
          · subst hs; exact Or.inr ⟨v, List.mem_cons_self _ _, h1, Or.inl h2⟩
          · exact Or.inr ⟨w, List.mem_cons_of_mem _ hw, hw2, hw3⟩
        · rintro (hs | ⟨w, hw, hw2, hw3⟩)
          · exact Or.inl (Or.inl hs)
          · rcases List.mem_cons.mp hw with heq | htail
            · exact Or.inl (Or.inr (congrArg Prod.fst heq))
            · exact Or.inr ⟨w, htail, hw2, hw3⟩
      · rw [if_neg h2]
        by_cases h3 : v ∈ valid
        · rw [if_pos h3, ih, mem_insertStr]
          constructor
          · rintro ((hs | hs) | ⟨w, hw, hw2, hw3⟩)
            · exact Or.inl hs
            · subst hs; exact Or.inr ⟨v, List.mem_cons_self _ _, h1, Or.inr h3⟩
            · exact Or.inr ⟨w, List.mem_cons_of_mem _ hw, hw2, hw3⟩
          · rintro (hs | ⟨w, hw, hw2, hw3⟩)
            · exact Or.inl (Or.inl hs)
            · rcases List.mem_cons.mp hw with heq | htail
              · exact Or.inl (Or.inr (congrArg Prod.fst heq))
              · exact Or.inr ⟨w, htail, hw2, hw3⟩
        · rw [if_neg h3, ih]
          constructor
          · rintro (hs | ⟨w, hw, hw2, hw3⟩)
            · exact Or.inl hs
            · exact Or.inr ⟨w, List.mem_cons_of_mem _ hw, hw2, hw3⟩
          · rintro (hs | ⟨w, hw, hw2, hw3⟩)
            · exact Or.inl hs
            · rcases List.mem_cons.mp hw with heq | htail
              · obtain ⟨hk, hv⟩ := Prod.mk.injEq .. ▸ heq
                injection heq with hk2 hv2
                subst hk2; subst hv2
                rcases hw3 with h4 | h4
                · exact absurd h4 h2
                · exact absurd h4 h3
              · exact Or.inr ⟨w, htail, hw2, hw3⟩
    · rw [if_pos (by simpa using h1)]
      rw [ih]
      constructor
      · rintro (hs | ⟨w, hw, hw2, hw3⟩)
        · exact Or.inl hs
        · exact Or.inr ⟨w, List.mem_cons_of_mem _ hw, hw2, hw3⟩
      · rintro (hs | ⟨w, hw, hw2, hw3⟩)
        · exact Or.inl hs
        · rcases List.mem_cons.mp hw with heq | htail
          · injection heq with hk2 hv2
            subst hk2
            exact absurd hw2 h1
          · exact Or.inr ⟨w, htail, hw2, hw3⟩

/-- When every rescue conversion succeeds, the rescue loop is exactly its
append events. -/
theorem rescueLoop_char (cls : List (String × String)) (valid : List String) :
    ∀ (nums : List JNum) (f : String → List Int),
      (∀ j ∈ nums, (pyIntJ j).isSome) →
      rescueLoop cls valid nums f = some (applyEvents f (rescueEvents cls valid nums)) := by
  intro nums
  induction nums with
  | nil => intro f h; simp [rescueLoop, rescueEvents, applyEvents]
  | cons j rest ih =>
    intro f h
    obtain ⟨n, hn⟩ := Option.isSome_iff_exists.mp (h j (List.mem_cons_self _ _))
    simp only [rescueLoop, hn]
    have hrest : ∀ j' ∈ rest, (pyIntJ j').isSome :=
      fun j' hj' => h j' (List.mem_cons_of_mem _ hj')
    have hev : rescueEvents cls valid (j :: rest)
        = (rescueTarget cls valid j, n) :: rescueEvents cls valid rest := by
      simp [rescueEvents, hn]
    cases hl : (cls.lookup (pyStrJ j)) with
    | some c =>
      dsimp only
      by_cases hc : c ∈ valid
      · rw [if_pos hc, ih _ hrest, hev]
        have ht : rescueTarget cls valid j = c := by
          unfold rescueTarget; rw [hl]; dsimp only; rw [if_pos hc]
        rw [ht]
        rfl
      · rw [if_neg hc, ih _ hrest, hev]
        have ht : rescueTarget cls valid j = FALLBACK_CATEGORY := by
          unfold rescueTarget; rw [hl]; dsimp only; rw [if_neg hc]
        rw [ht]
        rfl
    | none =>
      dsimp only
      rw [ih _ hrest, hev]
      have ht : rescueTarget cls valid j = FALLBACK_CATEGORY := by
        unfold rescueTarget; rw [hl]
      rw [ht]
      rfl

/-- The rescue loop only appends to category lists. -/
theorem rescueLoop_mono (cls : List (String × String)) (valid : List String) :
    ∀ (nums : List JNum) (f f' : String → List Int),
      rescueLoop cls valid nums f = some f' →
      ∀ c, ∃ tail, f' c = f c ++ tail := by
  intro nums
  induction nums with
  | nil =>
    intro f f' h c
    simp only [rescueLoop, Option.some_inj] at h
    exact ⟨[], by rw [← h]; simp⟩
  | cons j rest ih =>
    intro f f' h c
    simp only [rescueLoop] at h
    cases hn : pyIntJ j with
    | none => rw [hn] at h; dsimp only at h; exact absurd h (by simp)
    | some n =>
      rw [hn] at h
      dsimp only at h
      have step : ∀ x, rescueLoop cls valid rest (appendCat f x n) = some f' →
          ∃ tail, f' c = f c ++ tail := by
        intro x hx
        obtain ⟨tail, htail⟩ := ih _ _ hx c
        unfold appendCat at htail
        by_cases hcx : c = x
        · rw [if_pos hcx] at htail
          exact ⟨[n] ++ tail, by rw [htail]; simp⟩
        · rw [if_neg hcx] at htail
          exact ⟨tail, htail⟩
      cases hl : (cls.lookup (pyStrJ j)) with
      | some cat =>
        rw [hl] at h
        dsimp only at h
        by_cases hc : cat ∈ valid
        · rw [if_pos hc] at h; exact step _ h
        · rw [if_neg hc] at h; exact step _ h
      | none =>
        rw [hl] at h
        dsimp only at h
        exact step _ h

/-- Each successfully converted entry of a rescued trend ends up in its target
category's list. -/
theorem rescueLoop_mem (cls : List (String × String)) (valid : List String) :
    ∀ (nums : List JNum) (f f' : String → List Int) (j : JNum) (n : Int),
      rescueLoop cls valid nums f = some f' →
      j ∈ nums → pyIntJ j = some n →
      n ∈ f' (rescueTarget cls valid j) := by
  intro nums
  induction nums with
  | nil => intro f f' j n h hj; exact absurd hj (List.not_mem_nil _)
  | cons j0 rest ih =>
    intro f f' j n h hj hn
    simp only [rescueLoop] at h
    rcases List.mem_cons.mp hj with heq | htail
    · subst heq
      rw [hn] at h
      dsimp only at h
      have final : ∀ x, x = rescueTarget cls valid j →
          rescueLoop cls valid rest (appendCat f x n) = some f' →
          n ∈ f' (rescueTarget cls valid j) := by
        intro x hx hrest
        obtain ⟨tail, htail⟩ := rescueLoop_mono cls valid rest _ _ hrest (rescueTarget cls valid j)
        rw [htail, ← hx]
        unfold appendCat
        rw [if_pos rfl]
        simp
      cases hl : (cls.lookup (pyStrJ j)) with
      | some cat =>
        rw [hl] at h
        dsimp only at h
        by_cases hc : cat ∈ valid
        · rw [if_pos hc] at h
          exact final cat (by unfold rescueTarget; rw [hl]; dsimp only; rw [if_pos hc]) h
        · rw [if_neg hc] at h
          exact final FALLBACK_CATEGORY (by unfold rescueTarget; rw [hl]; dsimp only; rw [if_neg hc]) h
      | none =>
        rw [hl] at h
        dsimp only at h
        exact final FALLBACK_CATEGORY (by unfold rescueTarget; rw [hl]) h
    · cases hn0 : pyIntJ j0 with
      | none => rw [hn0] at h; dsimp only at h; exact absurd h (by simp)
      | some n0 =>
        rw [hn0] at h
        dsimp only at h
        cases hl : (cls.lookup (pyStrJ j0)) with
        | some cat =>
          rw [hl] at h
          dsimp only at h
          by_cases hc : cat ∈ valid
          · rw [if_pos hc] at h; exact ih _ _ _ _ h htail hn
          · rw [if_neg hc] at h; exact ih _ _ _ _ h htail hn
        | none =>
          rw [hl] at h
          dsimp only at h
          exact ih _ _ _ _ h htail hn

/-- Unfolding of the trend-validation loop for one proposal, with its rejection
condition folded into `trendRejected`. -/
theorem trendLoop_cons (cls : List (String × String)) (valid : List String)
    (tr : TrendProposal) (rest : List TrendProposal)
    (f : String → List Int) (acc : List TrendResult) :
    trendLoop cls valid (tr :: rest) f acc
      = if trendRejected tr then
          match rescueLoop cls valid (pyDedup tr.ticket_numbers) f with
          | none => none
          | some f' => trendLoop cls valid rest f' acc
        else trendLoop cls valid rest f (acc ++ [mkTrendResult tr (pyDedup tr.ticket_numbers)]) := by
  rfl

/-- The rejected-trend events of a list starting with a rejected proposal. -/
theorem trendEvents_cons_rejected (cls : List (String × String)) (valid : List String)
    (tr : TrendProposal) (rest : List TrendProposal) (h : trendRejected tr) :
    trendEvents cls valid (tr :: rest)
      = rescueEvents cls valid (pyDedup tr.ticket_numbers) ++ trendEvents cls valid rest := by
  simp [trendEvents, List.filter_cons, h]

/-- The rejected-trend events of a list starting with an accepted proposal. -/
theorem trendEvents_cons_accepted (cls : List (String × String)) (valid : List String)
    (tr : TrendProposal) (rest : List TrendProposal) (h : ¬ trendRejected tr) :
    trendEvents cls valid (tr :: rest) = trendEvents cls valid rest := by
  simp [trendEvents, List.filter_cons, h]

/-- The accepted trends of a list starting with a rejected proposal. -/
theorem acceptedTrends_cons_rejected (tr : TrendProposal) (rest : List TrendProposal)
    (h : trendRejected tr) :
    acceptedTrends (tr :: rest) = acceptedTrends rest := by
  simp [acceptedTrends, List.filter_cons, h]

/-- The accepted trends of a list starting with an accepted proposal. -/
theorem acceptedTrends_cons_accepted (tr : TrendProposal) (rest : List TrendProposal)
    (h : ¬ trendRejected tr) :
    acceptedTrends (tr :: rest)
      = mkTrendResult tr (pyDedup tr.ticket_numbers) :: acceptedTrends rest := by
  simp [acceptedTrends, List.filter_cons, h]

/-- When every rescue conversion of every rejected trend succeeds, the trend
loop is exactly: its rescue events applied to the table, and the accepted
trends appended to the accumulator. -/
theorem trendLoop_char (cls : List (String × String)) (valid : List String) :
    ∀ (trends : List TrendProposal) (f : String → List Int) (acc : List TrendResult),
      (∀ tr ∈ trends, trendRejected tr → ∀ j ∈ pyDedup tr.ticket_numbers, (pyIntJ j).isSome) →
      trendLoop cls valid trends f acc
        = some (applyEvents f (trendEvents cls valid trends), acc ++ acceptedTrends trends) := by
  intro trends
  induction trends with
  | nil =>
    intro f acc h
    simp [trendLoop, trendEvents, acceptedTrends, applyEvents]
  | cons tr rest ih =>
    intro f acc h
    rw [trendLoop_cons]
    by_cases hrej : trendRejected tr
    · rw [if_pos hrej]
      rw [rescueLoop_char cls valid _ f (h tr (List.mem_cons_self _ _) hrej)]
      dsimp only
      rw [ih _ _ (fun tr' h1 => h tr' (List.mem_cons_of_mem _ h1))]
      rw [trendEvents_cons_rejected cls valid tr rest hrej,
        acceptedTrends_cons_rejected tr rest hrej]
      rw [applyEvents_append]
    · rw [if_neg hrej]
      rw [ih _ _ (fun tr' h1 => h tr' (List.mem_cons_of_mem _ h1))]
      rw [trendEvents_cons_accepted cls valid tr rest hrej,
        acceptedTrends_cons_accepted tr rest hrej]
      simp [List.append_assoc]

/-- Whenever the trend loop succeeds, its accepted-trend output is the
accumulator followed by exactly the proposals passing admission, in order. -/
theorem trendLoop_acc (cls : List (String × String)) (valid : List String) :
    ∀ (trends : List TrendProposal) (f : String → List Int) (acc : List TrendResult)
      (f' : String → List Int) (out : List TrendResult),
      trendLoop cls valid trends f acc = some (f', out) →
      out = acc ++ acceptedTrends trends := by
  intro trends
  induction trends with
  | nil =>
    intro f acc f' out h
    simp only [trendLoop, Option.some_inj, Prod.mk.injEq] at h
    simp [← h.2, acceptedTrends]
  | cons tr rest ih =>
    intro f acc f' out h
    rw [trendLoop_cons] at h
    by_cases hrej : trendRejected tr
    · rw [if_pos hrej] at h
      cases hres : rescueLoop cls valid (pyDedup tr.ticket_numbers) f with
      | none => rw [hres] at h; dsimp only at h; exact absurd h (by simp)
      | some f'' =>
        rw [hres] at h
        dsimp only at h
        rw [ih _ _ _ _ h, acceptedTrends_cons_rejected tr rest hrej]
    · rw [if_neg hrej] at h
      rw [ih _ _ _ _ h, acceptedTrends_cons_accepted tr rest hrej]
      simp [List.append_assoc]

/-- The trend loop only appends to category lists. -/
theorem trendLoop_mono (cls : List (String × String)) (valid : List String) :
    ∀ (trends : List TrendProposal) (f : String → List Int) (acc : List TrendResult)
      (f' : String → List Int) (out : List TrendResult),
      trendLoop cls valid trends f acc = some (f', out) →
      ∀ c, ∃ tail, f' c = f c ++ tail := by
  intro trends
  induction trends with
  | nil =>
    intro f acc f' out h c
    simp only [trendLoop, Option.some_inj, Prod.mk.injEq] at h
    exact ⟨[], by rw [← h.1]; simp⟩
  | cons tr rest ih =>
    intro f acc f' out h c
    rw [trendLoop_cons] at h
    by_cases hrej : trendRejected tr
    · rw [if_pos hrej] at h
      cases hres : rescueLoop cls valid (pyDedup tr.ticket_numbers) f with
      | none => rw [hres] at h; dsimp only at h; exact absurd h (by simp)
      | some f'' =>
        rw [hres] at h
        dsimp only at h
        obtain ⟨t1, ht1⟩ := rescueLoop_mono cls valid _ _ _ hres c
        obtain ⟨t2, ht2⟩ := ih _ _ _ _ h c
        exact ⟨t1 ++ t2, by rw [ht2, ht1, List.append_assoc]⟩
    · rw [if_neg hrej] at h
      exact ih _ _ _ _ h c

/-- Each successfully converted entry of each rejected trend ends up in its
rescue-target category in the trend loop's final table. -/
theorem trendLoop_mem_rescued (cls : List (String × String)) (valid : List String) :
    ∀ (trends : List TrendProposal) (f : String → List Int) (acc : List TrendResult)
      (f' : String → List Int) (out : List TrendResult)
      (tr : TrendProposal) (j : JNum) (n : Int),
      trendLoop cls valid trends f acc = some (f', out) →
      tr ∈ trends → trendRejected tr → j ∈ pyDedup tr.ticket_numbers →
      pyIntJ j = some n →
      n ∈ f' (rescueTarget cls valid j) := by
  intro trends
  induction trends with
  | nil =>
    intro f acc f' out tr j n h htr
    exact absurd htr (List.not_mem_nil _)
  | cons tr0 rest ih =>
    intro f acc f' out tr j n h htr hrej hj hn
    rw [trendLoop_cons] at h
    rcases List.mem_cons.mp htr with heq | htail
    · subst heq
      rw [if_pos hrej] at h
      cases hres : rescueLoop cls valid (pyDedup tr.ticket_numbers) f with
      | none => rw [hres] at h; dsimp only at h; exact absurd h (by simp)
      | some f'' =>
        rw [hres] at h
        dsimp only at h
        have hmem := rescueLoop_mem cls valid _ _ _ _ _ hres hj hn
        obtain ⟨tail, htail2⟩ := trendLoop_mono cls valid _ _ _ _ _ h (rescueTarget cls valid j)
        rw [htail2]
        exact List.mem_append_left _ hmem
    · by_cases hrej0 : trendRejected tr0
      · rw [if_pos hrej0] at h
        cases hres : rescueLoop cls valid (pyDedup tr0.ticket_numbers) f with
        | none => rw [hres] at h; dsimp only at h; exact absurd h (by simp)
        | some f'' =>
          rw [hres] at h
          dsimp only at h
          exact ih _ _ _ _ _ _ _ h htail hrej hj hn
      · rw [if_neg hrej0] at h
        exact ih _ _ _ _ _ _ _ h htail hrej hj hn

/-- Membership in the unrecognised-keys list. -/
theorem mem_unrecognisedKeys (input trendNums valid : List String)
    (cls : List (String × String)) (s : String) :
    s ∈ unrecognisedKeys input trendNums valid cls
      ↔ ∃ v, (s, v) ∈ cls ∧ s ∈ input ∧ s ∉ trendNums ∧ v ∉ valid := by
  simp only [unrecognisedKeys, List.mem_filterMap]
  constructor
  · rintro ⟨kv, hkv, hif⟩
    by_cases hp : kv.1 ∈ input ∧ kv.1 ∉ trendNums ∧ kv.2 ∉ valid
    · rw [if_pos hp] at hif
      have hs : kv.1 = s := Option.some_inj.mp hif
      refine ⟨kv.2, ?_, hs ▸ hp.1, hs ▸ hp.2.1, hp.2.2⟩
      rw [← hs]
      exact hkv
    · rw [if_neg hp] at hif
      cases hif
  · rintro ⟨v, hv, h1, h2, h3⟩
    exact ⟨(s, v), hv, by rw [if_pos ⟨h1, h2, h3⟩]⟩

/-- The filter computing `missing` coincides with its proof view: distinct
input numbers with no classification entry and not claimed by any trend. -/
theorem missingFilter_eq (tickets : List Ticket) (raw : RawReply) :
    (pyDedup (inputTicketNumberStrs tickets)).filter
      (fun s => decide (s ∉ List.foldl insertStr
          (classifyLoop (inputTicketNumberStrs tickets) (trendTicketNumberStrs raw)
            validCategoryIds raw.classifications (fun _ => []) [] []).2.1
          (unrecognisedKeys (inputTicketNumberStrs tickets) (trendTicketNumberStrs raw)
            validCategoryIds raw.classifications)
        ∧ s ∉ trendTicketNumberStrs raw))
      = missingKeys tickets raw := by
  unfold missingKeys
  apply List.filter_congr
  intro s hs
  have hsin : s ∈ inputTicketNumberStrs tickets := (mem_pyDedup s _).mp hs
  apply decide_eq_decide.mpr
  rw [mem_foldl_insertStr, classifyLoop_classified, mem_unrecognisedKeys]
  constructor
  · rintro ⟨hncl, htn⟩
    refine ⟨?_, htn⟩
    intro kv hkv heq
    by_cases hv : kv.2 ∈ validCategoryIds
    · exact hncl (Or.inl (Or.inr ⟨kv.2, by rw [← heq]; exact (by simpa using hkv), hsin,
        Or.inr hv⟩))
    · exact hncl (Or.inr ⟨kv.2, by rw [← heq]; exact (by simpa using hkv), hsin, htn, hv⟩)
  · rintro ⟨hno, htn⟩
    refine ⟨?_, htn⟩
    rintro ((hfalse | ⟨v, hv, _, _⟩) | ⟨v, hv, _, _, _⟩)
    · simp at hfalse
    · exact hno (s, v) hv rfl
    · exact hno (s, v) hv rfl

/-- The pre-trend category table is exactly the classify, unrecognised-id and
completeness-sweep events applied to the empty table. -/
theorem preTrendTable_char (tickets : List Ticket) (raw : RawReply) :
    preTrendTable tickets raw = applyEvents (fun _ => []) (preTrendEvents tickets raw) := by
  unfold preTrendTable
  dsimp only
  rw [classifyLoop_fst, classifyLoop_unrec]
  simp only [List.nil_append]
  rw [missingFilter_eq]
  rw [applyEvents_append, applyEvents_append]
  unfold preTrendEvents classifyFallbackEvents missingEvents
  simp only [List.append_assoc]

/-- C6: reconciliation is deterministic — running the reconciler twice on the
same `(tickets, raw_reply)` pair yields identical Classification Results; the
embedding exhibits it as a pure function of exactly these two inputs, with no
other state. -/
theorem analyze_tickets_deterministic (tickets : List Ticket) (raw : RawReply)
    (out1 out2 : Option Analysis)
    (h1 : analyze_tickets tickets raw = out1)
    (h2 : analyze_tickets tickets raw = out2) : out1 = out2 := by
  rw [← h1, ← h2]

/-- Witness for C6 at a concrete pair: two runs agree. -/
theorem analyze_tickets_deterministic_witness :
    analyze_tickets exTickets6 exRaw6 = analyze_tickets exTickets6 exRaw6 :=
  analyze_tickets_deterministic exTickets6 exRaw6 _ _ rfl rfl

/-- Shape of every successful reconciliation: a final table `f4` from the
trend loop, categories built from it by deduplication, and the loop's accepted
trends. -/
theorem analyze_tickets_some (tickets : List Ticket) (raw : RawReply) (a : Analysis)
    (h : analyze_tickets tickets raw = some a) :
    ∃ f4, trendLoop raw.classifications validCategoryIds raw.new_trends
        (preTrendTable tickets raw) [] = some (f4, a.new_trends)
      ∧ a = ⟨raw.analysis_date.getD "", tickets.length,
          KNOWN_CATEGORIES.map (fun c =>
            CategoryResult.mk c.category_id c.title (pyDedup (f4 c.category_id))
              (pyDedup (f4 c.category_id)).length
              (raw.category_summaries.lookup c.category_id)),
          a.new_trends, raw.ticket_summaries⟩ := by
  unfold analyze_tickets at h
  by_cases hemp : tickets.isEmpty
  · rw [if_pos hemp] at h
    exact absurd h (by simp)
  · rw [if_neg hemp] at h
    unfold reconcile at h
    cases htl : trendLoop raw.classifications validCategoryIds raw.new_trends
        (preTrendTable tickets raw) [] with
    | none =>
      rw [htl] at h
      dsimp only at h
      exact absurd h (by simp)
    | some p =>
      obtain ⟨f4, nt⟩ := p
      rw [htl] at h
      dsimp only at h
      obtain rfl := Option.some_inj.mp h
      exact ⟨f4, rfl, rfl⟩

/-- C2: trend admission — each proposed trend's ticket list is deduplicated
(first-seen order) with volume recomputed as its length; a proposal is dropped
exactly when that volume is below two or its trimmed title is empty or, case
insensitively, in the forbidden generic-title set; every surviving trend
carries volume at least two, the deduplicated list, and a non-generic,
non-empty title (in particular never "Miscellaneous" in any case). -/
theorem trend_admission (tickets : List Ticket) (raw : RawReply) (a : Analysis)
    (h : analyze_tickets tickets raw = some a) :
    a.new_trends
        = (raw.new_trends.filter (fun tr =>
            decide (¬ ((pyDedup tr.ticket_numbers).length < 2
              ∨ (pyLower (pyStrip (tr.title.getD "")) ∈ GENERIC_TITLES
                ∨ pyStrip (tr.title.getD "") = ""))))).map
          (fun tr => mkTrendResult tr (pyDedup tr.ticket_numbers))
      ∧ ∀ tr' ∈ a.new_trends,
          2 ≤ tr'.volume
          ∧ tr'.ticket_numbers = pyDedup tr'.base.ticket_numbers
          ∧ tr'.volume = tr'.ticket_numbers.length
          ∧ pyStrip (tr'.base.title.getD "") ≠ ""
          ∧ pyLower (pyStrip (tr'.base.title.getD "")) ∉ GENERIC_TITLES
          ∧ pyLower (pyStrip (tr'.base.title.getD "")) ≠ "miscellaneous" := by
  obtain ⟨f4, htl, hshape⟩ := analyze_tickets_some tickets raw a h
  have hacc : a.new_trends = acceptedTrends raw.new_trends := by
    have := trendLoop_acc _ _ _ _ _ _ _ htl
    simpa using this
  constructor
  · rw [hacc]
    unfold acceptedTrends
    apply congrArg
    apply List.filter_congr
    intro tr _
    apply decide_eq_decide.mpr
    exact Iff.rfl
  · intro tr' htr'
    rw [hacc] at htr'
    unfold acceptedTrends at htr'
    rw [List.mem_map] at htr'
    obtain ⟨tr, htrm, rfl⟩ := htr'
    rw [List.mem_filter] at htrm
    obtain ⟨htrmem, hpred⟩ := htrm
    have hnr : ¬ trendRejected tr := of_decide_eq_true hpred
    unfold trendRejected at hnr
    push_neg at hnr
    obtain ⟨hlen, hgen, hemp⟩ := hnr
    refine ⟨by simp [mkTrendResult]; omega, rfl, rfl, hemp, hgen, ?_⟩
    intro heq
    exact hgen (heq ▸ (by decide : ("miscellaneous" : String) ∈ GENERIC_TITLES))

/-- Witness for C2 at a concrete reply containing one admitted trend (with a
duplicated ticket entry) and one rejected generic-titled trend. -/
theorem trend_admission_witness :
    analyze_tickets exTickets2 exRaw2 = some exAnalysis2
    ∧ (exAnalysis2.new_trends
        = (exRaw2.new_trends.filter (fun tr =>
            decide (¬ ((pyDedup tr.ticket_numbers).length < 2
              ∨ (pyLower (pyStrip (tr.title.getD "")) ∈ GENERIC_TITLES
                ∨ pyStrip (tr.title.getD "") = ""))))).map
          (fun tr => mkTrendResult tr (pyDedup tr.ticket_numbers))
      ∧ ∀ tr' ∈ exAnalysis2.new_trends,
          2 ≤ tr'.volume
          ∧ tr'.ticket_numbers = pyDedup tr'.base.ticket_numbers
          ∧ tr'.volume = tr'.ticket_numbers.length
          ∧ pyStrip (tr'.base.title.getD "") ≠ ""
          ∧ pyLower (pyStrip (tr'.base.title.getD "")) ∉ GENERIC_TITLES
          ∧ pyLower (pyStrip (tr'.base.title.getD "")) ≠ "miscellaneous") :=
  ⟨by decide, trend_admission exTickets2 exRaw2 exAnalysis2 (by decide)⟩

/-- An event in the list lands in its category's final list. -/
theorem mem_applyEvents (f : String → List Int) (evs : List (String × Int))
    (c : String) (n : Int) (h : (c, n) ∈ evs) : n ∈ applyEvents f evs c := by
  rw [applyEvents_apply]
  apply List.mem_append_right
  exact List.mem_filterMap.mpr ⟨(c, n), h, by simp⟩

/-- A successful `dict.get` returns an entry of the mapping. -/
theorem lookup_mem (l : List (String × String)) (k v : String)
    (h : l.lookup k = some v) : (k, v) ∈ l := by
  induction l with
  | nil => simp [List.lookup] at h
  | cons e rest ih =>
    rw [List.lookup_cons] at h
    by_cases hk : (k == e.1) = true
    · rw [hk] at h
      dsimp only at h
      have hke : k = e.1 := beq_iff_eq.mp hk
      have hv : e.2 = v := Option.some_inj.mp h
      exact List.mem_cons.mpr (Or.inl (by rw [hke, ← hv]))
    · rw [Bool.not_eq_true] at hk
      rw [hk] at h
      dsimp only at h
      exact List.mem_cons_of_mem _ (ih h)

/-- Membership in the final table at the fallback id transfers to the fallback
category's list in the assembled analysis. -/
theorem output_mem_of_table_mem (raw : RawReply) (tickets : List Ticket)
    (f4 : String → List Int) (a : Analysis) (n : Int)
    (hshape : a = ⟨raw.analysis_date.getD "", tickets.length,
        KNOWN_CATEGORIES.map (fun c =>
          CategoryResult.mk c.category_id c.title (pyDedup (f4 c.category_id))
            (pyDedup (f4 c.category_id)).length
            (raw.category_summaries.lookup c.category_id)),
        a.new_trends, raw.ticket_summaries⟩)
    (hm : n ∈ f4 FALLBACK_CATEGORY) :
    ∀ c ∈ a.known_categories, c.category_id = FALLBACK_CATEGORY → n ∈ c.ticket_numbers := by
  intro c hc hcid
  rw [hshape] at hc
  dsimp only at hc
  rw [List.mem_map] at hc
  obtain ⟨cat, hcat, rfl⟩ := hc
  dsimp only at hcid ⊢
  rw [hcid]
  exact (mem_pyDedup n _).mpr hm

/-- C3: unknown-category fallback — a flat-classification pair whose ticket
number is in the batch and unclaimed by any proposed trend, but whose category
id is not a known taxonomy id, lands that ticket in the fallback category's
list of the final result; it is never dropped. -/
theorem unknown_category_fallback (tickets : List Ticket) (raw : RawReply)
    (a : Analysis) (k catId : String)
    (h : analyze_tickets tickets raw = some a)
    (hk : (k, catId) ∈ raw.classifications)
    (hkin : k ∈ inputTicketNumberStrs tickets)
    (hknt : k ∉ trendTicketNumberStrs raw)
    (hcat : catId ∉ validCategoryIds) :
    ∀ c ∈ a.known_categories, c.category_id = FALLBACK_CATEGORY →
      intOfNumStr k ∈ c.ticket_numbers := by
  obtain ⟨f4, htl, hshape⟩ := analyze_tickets_some tickets raw a h
  have hpre : intOfNumStr k ∈ preTrendTable tickets raw FALLBACK_CATEGORY := by
    rw [preTrendTable_char]
    apply mem_applyEvents
    unfold preTrendEvents
    apply List.mem_append_left
    apply List.mem_append_right
    unfold classifyFallbackEvents
    exact List.mem_map.mpr
      ⟨k, (mem_unrecognisedKeys _ _ _ _ k).mpr ⟨catId, hk, hkin, hknt, hcat⟩, rfl⟩
  have hf4 : intOfNumStr k ∈ f4 FALLBACK_CATEGORY := by
    obtain ⟨tail, htail⟩ := trendLoop_mono _ _ _ _ _ _ _ htl FALLBACK_CATEGORY
    rw [htail]
    exact List.mem_append_left _ hpre
  exact output_mem_of_table_mem raw tickets f4 a _ hshape hf4

/-- Witness for C3: ticket 7 is classified with an invented id and lands in
the fallback category. -/
theorem unknown_category_fallback_witness :
    analyze_tickets exTickets3 exRaw3 = some exAnalysis3
    ∧ ("7", "made_up_category") ∈ exRaw3.classifications
    ∧ "7" ∈ inputTicketNumberStrs exTickets3
    ∧ "7" ∉ trendTicketNumberStrs exRaw3
    ∧ "made_up_category" ∉ validCategoryIds
    ∧ ∀ c ∈ exAnalysis3.known_categories, c.category_id = FALLBACK_CATEGORY →
        intOfNumStr "7" ∈ c.ticket_numbers :=
  ⟨by decide, by decide, by decide, by decide, by decide,
    unknown_category_fallback exTickets3 exRaw3 exAnalysis3 "7" "made_up_category"
      (by decide) (by decide) (by decide) (by decide) (by decide)⟩

/-- C4: completeness sweep — an input ticket that neither gets a valid
category id from the flat classification mapping nor is claimed by an accepted
trend ends up in the fallback category's list; in particular a ticket omitted
from the reply entirely is force-assigned there. -/
theorem completeness_sweep (tickets : List Ticket) (raw : RawReply) (a : Analysis)
    (t : Ticket)
    (h : analyze_tickets tickets raw = some a)
    (ht : t ∈ tickets)
    (hnc : ∀ v, (pyStrInt t.number, v) ∈ raw.classifications → v ∉ validCategoryIds)
    (hna : ∀ tr' ∈ a.new_trends, pyStrInt t.number ∉ tr'.ticket_numbers.map pyStrJ) :
    ∀ c ∈ a.known_categories, c.category_id = FALLBACK_CATEGORY →
      t.number ∈ c.ticket_numbers := by
  obtain ⟨f4, htl, hshape⟩ := analyze_tickets_some tickets raw a h
  have hsin : pyStrInt t.number ∈ inputTicketNumberStrs tickets :=
    List.mem_map.mpr ⟨t, ht, rfl⟩
  by_cases hstn : pyStrInt t.number ∈ trendTicketNumberStrs raw
  · -- the number string is claimed by some proposed trend
    have hex : ∃ tr ∈ raw.new_trends, ∃ j ∈ tr.ticket_numbers, pyStrJ j = pyStrInt t.number := by
      unfold trendTicketNumberStrs at hstn
      simp only [List.mem_flatten, List.mem_map] at hstn
      obtain ⟨l, ⟨tr, htr, rfl⟩, hsl⟩ := hstn
      obtain ⟨j, hj, hjs⟩ := List.mem_map.mp hsl
      exact ⟨tr, htr, j, hj, hjs⟩
    by_cases hrej : ∃ tr ∈ raw.new_trends, trendRejected tr
        ∧ ∃ j ∈ tr.ticket_numbers, pyStrJ j = pyStrInt t.number
    · -- rescued from a discarded trend into the fallback category
      obtain ⟨tr, htr, htrrej, j, hj, hjs⟩ := hrej
      have hpi : pyIntJ j = some t.number := by
        unfold pyIntJ
        rw [hjs]
        exact pyIntStr_pyStrInt t.number
      have hmem := trendLoop_mem_rescued _ _ _ _ _ _ _ tr j t.number htl htr htrrej
        ((mem_pyDedup j _).mpr hj) hpi
      have htgt : rescueTarget raw.classifications validCategoryIds j = FALLBACK_CATEGORY := by
        unfold rescueTarget
        rw [hjs]
        cases hl : raw.classifications.lookup (pyStrInt t.number) with
        | none => rfl
        | some v =>
          dsimp only
          rw [if_neg (hnc v (lookup_mem _ _ _ hl))]
      rw [htgt] at hmem
      exact output_mem_of_table_mem raw tickets f4 a _ hshape hmem
    · -- every trend containing it is accepted: contradicts the hypothesis
      exfalso
      obtain ⟨tr, htr, j, hj, hjs⟩ := hex
      have hacc : ¬ trendRejected tr := fun hr => hrej ⟨tr, htr, hr, j, hj, hjs⟩
      have hnt : a.new_trends = acceptedTrends raw.new_trends := by
        simpa using trendLoop_acc _ _ _ _ _ _ _ htl
      apply hna (mkTrendResult tr (pyDedup tr.ticket_numbers))
      · rw [hnt]
        unfold acceptedTrends
        exact List.mem_map.mpr
          ⟨tr, List.mem_filter.mpr ⟨htr, decide_eq_true hacc⟩, rfl⟩
      · exact List.mem_map.mpr ⟨j, (mem_pyDedup j _).mpr hj, hjs⟩
  · -- not claimed by any proposed trend
    by_cases hcls : ∃ v, (pyStrInt t.number, v) ∈ raw.classifications
    · -- an entry exists; its id is invalid, so the unrecognised loop fires
      obtain ⟨v, hv⟩ := hcls
      have hpre : intOfNumStr (pyStrInt t.number)
          ∈ preTrendTable tickets raw FALLBACK_CATEGORY := by
        rw [preTrendTable_char]
        apply mem_applyEvents
        unfold preTrendEvents
        apply List.mem_append_left
        apply List.mem_append_right
        unfold classifyFallbackEvents
        exact List.mem_map.mpr
          ⟨pyStrInt t.number,
            (mem_unrecognisedKeys _ _ _ _ _).mpr ⟨v, hv, hsin, hstn, hnc v hv⟩, rfl⟩
      rw [intOfNumStr_pyStrInt] at hpre
      obtain ⟨tail, htail⟩ := trendLoop_mono _ _ _ _ _ _ _ htl FALLBACK_CATEGORY
      exact output_mem_of_table_mem raw tickets f4 a _ hshape
        (by rw [htail]; exact List.mem_append_left _ hpre)
    · -- no entry at all; the completeness sweep fires
      have hmk : pyStrInt t.number ∈ missingKeys tickets raw := by
        unfold missingKeys
        rw [List.mem_filter]
        refine ⟨(mem_pyDedup _ _).mpr hsin, ?_⟩
        apply decide_eq_true
        refine ⟨?_, hstn⟩
        intro kv hkv heq
        exact hcls ⟨kv.2, by rw [← heq]; exact hkv⟩
      have hpre : intOfNumStr (pyStrInt t.number)
          ∈ preTrendTable tickets raw FALLBACK_CATEGORY := by
        rw [preTrendTable_char]
        apply mem_applyEvents
        unfold preTrendEvents
        apply List.mem_append_right
        unfold missingEvents
        exact List.mem_map.mpr ⟨pyStrInt t.number, hmk, rfl⟩
      rw [intOfNumStr_pyStrInt] at hpre
      obtain ⟨tail, htail⟩ := trendLoop_mono _ _ _ _ _ _ _ htl FALLBACK_CATEGORY
      exact output_mem_of_table_mem raw tickets f4 a _ hshape
        (by rw [htail]; exact List.mem_append_left _ hpre)

/-- Witness for C4: ticket 22 is omitted from the reply and is force-assigned
to the fallback category. -/
theorem completeness_sweep_witness :
    analyze_tickets exTickets4 exRaw4 = some exAnalysis4
    ∧ (⟨22, "s", "m"⟩ : Ticket) ∈ exTickets4
    ∧ (∀ kv ∈ exRaw4.classifications, kv.1 ≠ pyStrInt (22 : Int))
    ∧ (∀ tr' ∈ exAnalysis4.new_trends,
        pyStrInt (22 : Int) ∉ tr'.ticket_numbers.map pyStrJ)
    ∧ ∀ c ∈ exAnalysis4.known_categories, c.category_id = FALLBACK_CATEGORY →
        (22 : Int) ∈ c.ticket_numbers :=
  ⟨by decide, by decide, by decide, by decide,
    completeness_sweep exTickets4 exRaw4 exAnalysis4 ⟨22, "s", "m"⟩
      (by decide) (by decide)
      (fun v hv => by
        rcases List.mem_cons.mp hv with heq | hnil
        · have h1 : pyStrInt ((⟨22, "s", "m"⟩ : Ticket)).number = "21" :=
            congrArg Prod.fst heq
          exact absurd h1 (by decide)
        · exact absurd hnil (List.not_mem_nil _))
      (by decide)⟩

/-- C5 counterexample: a non-empty batch and a reply that parses as a JSON
object, yet the reconciler produces no result — the discarded trend's
non-numeric ticket-number entry makes `int(str(num))` raise inside the rescue
loop, so "malformed trend ticket-number entries never cause failure" is false
as stated. -/
theorem reconciler_failure_counterexample :
    analyze_tickets exTickets5 exRaw5 = none ∧ exTickets5 ≠ [] := by
  exact ⟨by decide, by decide⟩

/-- C5 (amended): for a non-empty batch, the reconciler produces a result for
every parsed reply whose trend ticket-number entries each convert to an
integer under Python `int(str(·))`; the other malformations (wrong, missing or
duplicate category ids, malformed volumes, generic titles) indeed never cause
failure. -/
theorem reconciler_failure_amended (tickets : List Ticket) (raw : RawReply)
    (hne : tickets ≠ [])
    (hconv : ∀ tr ∈ raw.new_trends, ∀ j ∈ tr.ticket_numbers, (pyIntJ j).isSome) :
    ∃ a, analyze_tickets tickets raw = some a := by
  unfold analyze_tickets
  rw [if_neg (by simpa [List.isEmpty_iff] using hne)]
  unfold reconcile
  rw [trendLoop_char raw.classifications validCategoryIds raw.new_trends
    (preTrendTable tickets raw) []
    (fun tr htr _ j hj => hconv tr htr j ((mem_pyDedup j _).mp hj))]
  exact ⟨_, rfl⟩

/-- Witness for the amended C5: a reply with a discarded trend whose entries
(an integer and a numeric string) all convert, and the analysis exists. -/
theorem reconciler_failure_amended_witness :
    exTickets5w ≠ []
    ∧ (∀ tr ∈ exRaw5w.new_trends, ∀ j ∈ tr.ticket_numbers, (pyIntJ j).isSome)
    ∧ ∃ a, analyze_tickets exTickets5w exRaw5w = some a :=
  ⟨by decide, by decide,
    reconciler_failure_amended exTickets5w exRaw5w (by decide) (by decide)⟩

/-- The merged per-ticket summary of an input ticket: the stripped model
summary when non-empty, else the precomputed fallback. -/
theorem ticketDetails_lookup (aiS : List (String × String)) (t : Ticket) :
    ∀ (tickets : List Ticket),
      (tickets.map (fun t => pyStrInt t.number)).Nodup →
      t ∈ tickets →
      (ticketDetails tickets aiS).lookup (pyStrInt t.number)
        = some (if pyStrip ((aiS.lookup (pyStrInt t.number)).getD "") ≠ ""
                then pyStrip ((aiS.lookup (pyStrInt t.number)).getD "")
                else fallbackDetailFor t) := by
  intro tickets
  induction tickets with
  | nil => intro _ ht; exact absurd ht (List.not_mem_nil _)
  | cons t0 rest ih =>
    intro hnd ht
    show (List.lookup _ (_ :: _)) = _
    rw [List.lookup_cons]
    by_cases heq : pyStrInt t.number = pyStrInt t0.number
    · rcases List.mem_cons.mp ht with rfl | hmem
      · rw [show (pyStrInt t.number == pyStrInt t.number) = true from beq_iff_eq.mpr rfl]
      · exfalso
        rw [List.map_cons, List.nodup_cons] at hnd
        exact hnd.1 (heq ▸ List.mem_map.mpr ⟨t, hmem, rfl⟩)
    · rw [show (pyStrInt t.number == pyStrInt t0.number) = false from
        beq_eq_false_iff_ne.mpr heq]
      dsimp only
      have hmem : t ∈ rest := by
        rcases List.mem_cons.mp ht with rfl | hmem
        · exact absurd rfl heq
        · exact hmem
      rw [List.map_cons, List.nodup_cons] at hnd
      exact ih hnd.2 hmem

/-- C9 counterexample: the model supplies the summary " Cannot log in "
(non-empty after trimming), but the final per-ticket summary is the trimmed
string, which differs from the model-provided one — so "equals the
model-provided summary" is false as stated. -/
theorem summary_selection_counterexample :
    (ticketDetails exTickets9 exAi9).lookup "7" = some "Cannot log in"
    ∧ exAi9.lookup "7" = some " Cannot log in "
    ∧ ("Cannot log in" : String) ≠ " Cannot log in " :=
  ⟨by decide, by decide, by decide⟩

/-- C9 (amended): the final per-ticket summary equals the model-provided
summary stripped of surrounding whitespace when that is non-empty, and
otherwise the locally derived fallback (the 120-character stripped-body
snippet, or the subject when the snippet is empty or case-insensitively
duplicates it). -/
theorem summary_selection_amended (tickets : List Ticket)
    (aiS : List (String × String)) (t : Ticket)
    (hnd : (tickets.map (fun t => pyStrInt t.number)).Nodup)
    (ht : t ∈ tickets) :
    (pyStrip ((aiS.lookup (pyStrInt t.number)).getD "") ≠ "" →
      (ticketDetails tickets aiS).lookup (pyStrInt t.number)
        = some (pyStrip ((aiS.lookup (pyStrInt t.number)).getD "")))
    ∧ (pyStrip ((aiS.lookup (pyStrInt t.number)).getD "") = "" →
      (ticketDetails tickets aiS).lookup (pyStrInt t.number)
        = some (fallbackDetailFor t)) := by
  constructor
  · intro hne
    rw [ticketDetails_lookup aiS t tickets hnd ht, if_pos hne]
  · intro hemp
    rw [ticketDetails_lookup aiS t tickets hnd ht, if_neg (by simp [hemp])]

/-- Witness for the amended C9 at the concrete whitespace-padded summary. -/
theorem summary_selection_amended_witness :
    ((exTickets9.map (fun t => pyStrInt t.number)).Nodup
      ∧ (⟨7, "Login broken", "User cannot log in to the app"⟩ : Ticket) ∈ exTickets9)
    ∧ (pyStrip ((exAi9.lookup (pyStrInt (7 : Int))).getD "") ≠ "" →
        (ticketDetails exTickets9 exAi9).lookup (pyStrInt (7 : Int))
          = some (pyStrip ((exAi9.lookup (pyStrInt (7 : Int))).getD "")))
    ∧ (pyStrip ((exAi9.lookup (pyStrInt (7 : Int))).getD "") = "" →
        (ticketDetails exTickets9 exAi9).lookup (pyStrInt (7 : Int))
          = some (fallbackDetailFor ⟨7, "Login broken", "User cannot log in to the app"⟩)) :=
  ⟨⟨by decide, by decide⟩,
    (summary_selection_amended exTickets9 exAi9
      ⟨7, "Login broken", "User cannot log in to the app"⟩ (by decide) (by decide)).1,
    (summary_selection_amended exTickets9 exAi9
      ⟨7, "Login broken", "User cannot log in to the app"⟩ (by decide) (by decide)).2⟩

/-- C10: prompt body truncation — the built-in prompt depends on each ticket's
body only through its first 600 characters: truncating every body to 600
characters leaves the rendered prompt unchanged, so text beyond that never
appears in it. -/
theorem prompt_body_truncation (tickets : List Ticket) :
    build_analysis_prompt tickets PromptTemplate.noTemplate
      = build_analysis_prompt
          (tickets.map (fun t => ⟨t.number, t.subject, pySlice t.first_message 600⟩))
          PromptTemplate.noTemplate := by
  unfold build_analysis_prompt
  dsimp only
  apply congrArg
  unfold builtinPromptChars
  have hcount : (tickets.map (fun t =>
      (⟨t.number, t.subject, pySlice t.first_message 600⟩ : Ticket))).length
        = tickets.length := List.length_map _ _
  have hnums : allTicketNumbersChars
      (tickets.map (fun t => ⟨t.number, t.subject, pySlice t.first_message 600⟩))
        = allTicketNumbersChars tickets := by
    unfold allTicketNumbersChars
    rw [List.map_map]
    rfl
  have hfmt : ticketsFormattedChars
      (tickets.map (fun t => ⟨t.number, t.subject, pySlice t.first_message 600⟩))
        = ticketsFormattedChars tickets := by
    unfold ticketsFormattedChars
    rw [List.map_map]
    apply congrArg
    apply List.map_congr_left
    intro t _
    dsimp only [Function.comp, pySlice]
    rw [List.take_take]
    simp
  rw [hcount, hnums, hfmt]

/-- C8: malformed-template fallback — for every batch and template value the
prompt builder returns a document without raising: either the built-in
document (no template, a falsy template, or one whose substitution raises) or
the template with the three placeholder substitutions applied in source
order. -/
theorem prompt_builder_total (tickets : List Ticket) (template : PromptTemplate) :
    build_analysis_prompt tickets template = ⟨builtinPromptChars tickets⟩
    ∨ (∃ s, template = PromptTemplate.strTemplate s ∧ s ≠ ""
        ∧ build_analysis_prompt tickets template
          = ⟨replaceAll PH_FORMATTED (ticketsFormattedChars tickets)
              (replaceAll PH_NUMBERS (allTicketNumbersChars tickets)
                (replaceAll PH_COUNT (pyStrNatChars tickets.length) s.data))⟩) := by
  cases template with
  | noTemplate => exact Or.inl rfl
  | badTemplate => exact Or.inl rfl
  | strTemplate s =>
    by_cases hs : s.data = []
    · left
      unfold build_analysis_prompt
      dsimp only
      rw [if_pos hs]
    · right
      refine ⟨s, rfl, ?_, ?_⟩
      · intro he
        exact hs (by rw [he])
      · unfold build_analysis_prompt
        dsimp only
        rw [if_neg hs]

/-- Characters of `str(i)` are a minus sign or decimal digits. -/
theorem mem_pyStrIntChars (i : Int) (c : Char) (h : c ∈ pyStrIntChars i) :
    c = '-' ∨ c ∈ decimalDigits := by
  unfold pyStrIntChars at h
  split at h
  · rcases List.mem_cons.mp h with h1 | h1
    · exact Or.inl h1
    · exact Or.inr (mem_natToRevDigits _ c (List.mem_reverse.mp h1))
  · exact Or.inr (mem_natToRevDigits _ c (List.mem_reverse.mp h))

/-- No opening brace occurs in a rendered natural number. -/
theorem brace_not_mem_pyStrNatChars (n : Nat) : '\x7b' ∉ pyStrNatChars n := by
  intro h
  exact absurd (mem_natToRevDigits n _ (List.mem_reverse.mp h)) (by decide)

/-- A character of a joined list comes from the separator or from a part. -/
theorem mem_joinSep (sep : List Char) (c : Char) :
    ∀ parts, c ∈ joinSep sep parts → c ∈ sep ∨ ∃ p ∈ parts, c ∈ p := by
  intro parts
  induction parts with
  | nil => intro h; simp [joinSep] at h
  | cons x rest ih =>
    intro h
    cases rest with
    | nil =>
      exact Or.inr ⟨x, List.mem_cons_self _ _, h⟩
    | cons y rest' =>
      simp only [joinSep] at h
      rcases List.mem_append.mp h with h1 | h1
      · rcases List.mem_append.mp h1 with h2 | h2
        · exact Or.inr ⟨x, List.mem_cons_self _ _, h2⟩
        · exact Or.inl h2
      · rcases ih h1 with h2 | ⟨p, hp, hcp⟩
        · exact Or.inl h2
        · exact Or.inr ⟨p, List.mem_cons_of_mem _ hp, hcp⟩

/-- No opening brace occurs in the rendered ticket-number list. -/
theorem brace_not_mem_allTicketNumbers (tickets : List Ticket) :
    '\x7b' ∉ allTicketNumbersChars tickets := by
  intro h
  unfold allTicketNumbersChars at h
  rcases List.mem_append.mp h with h1 | h1
  · rcases List.mem_append.mp h1 with h2 | h2
    · exact absurd h2 (by decide)
    · rcases mem_joinSep _ _ _ h2 with h3 | ⟨p, hp, hcp⟩
      · exact absurd h3 (by decide)
      · obtain ⟨t, _, rfl⟩ := List.mem_map.mp hp
        rcases mem_pyStrIntChars _ _ hcp with h4 | h4
        · exact absurd h4 (by decide)
        · exact absurd h4 (by decide)
  · exact absurd h1 (by decide)

/-- A prefix agrees with the full list at every index below its length. -/
theorem prefix_getElem (pat l : List Char) (h : pat <+: l) (j : Nat)
    (hj : j < pat.length) : l[j]? = pat[j]? := by
  obtain ⟨t, rfl⟩ := h
  rw [List.getElem?_append, if_pos hj]

/-- Under the mismatch condition, the pattern is not a prefix of the block
followed by anything. -/
theorem not_prefix_of_noTailMatch (pat pb rest : List Char)
    (h : noTailMatch pat pb) (hpb : pb ≠ []) : ¬ pat.isPrefixOf (pb ++ rest) := by
  intro hpre
  have hpre' : pat <+: (pb ++ rest) := List.isPrefixOf_iff_prefix.mp hpre
  obtain ⟨j, hj1, hj2, hj3⟩ := h 0 (List.length_pos.mpr hpb)
  simp only [Nat.zero_add] at hj2 hj3
  apply hj3
  rw [← prefix_getElem pat (pb ++ rest) hpre' j hj1]
  rw [List.getElem?_append, if_pos hj2]

/-- The replace scan walks over a brace-free chunk unchanged. -/
theorem skipChunk (pat repl : List Char) (hpat : pat.head? = some '\x7b') :
    ∀ (a rest : List Char), '\x7b' ∉ a →
      replaceAll pat repl (a ++ rest) = a ++ replaceAll pat repl rest := by
  intro a
  induction a with
  | nil => intro rest _; simp
  | cons c a' ih =>
    intro rest ha
    rw [List.cons_append, replaceAll_cons]
    rw [if_neg]
    · rw [ih rest (fun hmem => ha (List.mem_cons_of_mem _ hmem))]
      rfl
    · rintro ⟨hne, hpre⟩
      obtain ⟨t, ht⟩ := List.isPrefixOf_iff_prefix.mp hpre
      cases pat with
      | nil => exact hne rfl
      | cons p0 pt =>
        have hp0 : p0 = '\x7b' := Option.some_inj.mp hpat
        have hc : p0 = c := by
          have := congrArg List.head? ht
          simpa using this
        exact ha (List.mem_cons.mpr (Or.inl (by rw [← hc, hp0])))

/-- The replace scan consumes an exact pattern occurrence. -/
theorem consumePat (pat repl rest : List Char) (hne : pat ≠ []) :
    replaceAll pat repl (pat ++ rest) = repl ++ replaceAll pat repl rest := by
  cases pat with
  | nil => exact absurd rfl hne
  | cons p0 pt =>
    rw [List.cons_append, replaceAll_cons]
    rw [if_pos ⟨hne, List.isPrefixOf_iff_prefix.mpr ⟨rest, by simp⟩⟩]
    congr 1
    have hdrop : (p0 :: (pt ++ rest)).drop (p0 :: pt).length = rest := by
      rw [show (p0 :: (pt ++ rest)) = (p0 :: pt) ++ rest from rfl]
      exact List.drop_left _ _
    rw [hdrop]

/-- The replace scan walks over a mismatching placeholder block unchanged. -/
theorem skipBlock (pat repl : List Char) :
    ∀ (pb : List Char), noTailMatch pat pb →
      ∀ rest, replaceAll pat repl (pb ++ rest) = pb ++ replaceAll pat repl rest := by
  intro pb
  induction pb with
  | nil => intro _ rest; simp
  | cons c pb' ih =>
    intro h rest
    have hshift : noTailMatch pat pb' := by
      intro i hi
      obtain ⟨j, hj1, hj2, hj3⟩ := h (i + 1) (by simp; omega)
      refine ⟨j, hj1, by simp at hj2 ⊢; omega, ?_⟩
      rw [show i + 1 + j = (i + j) + 1 from by omega] at hj3
      rw [List.getElem?_cons_succ] at hj3
      exact hj3
    rw [show ((c :: pb') ++ rest) = c :: (pb' ++ rest) from rfl, replaceAll_cons]
    rw [if_neg]
    · rw [ih hshift rest]
      rfl
    · rintro ⟨hne, hpre⟩
      exact not_prefix_of_noTailMatch pat (c :: pb') rest h (by simp) hpre

/-- One full substitution stage over a block decomposition: chunks and other
placeholders pass through, every occurrence of the stage's pattern is
replaced. -/
theorem replaceAll_blocks (pat repl : List Char) (hpat : pat.head? = some '\x7b')
    (hne : pat ≠ []) :
    ∀ (blocks : List Blk),
      (∀ s, Blk.chunk s ∈ blocks → '\x7b' ∉ s) →
      (∀ pb, Blk.other pb ∈ blocks → noTailMatch pat pb) →
      replaceAll pat repl ((blocks.map (blkText pat)).flatten)
        = (blocks.map (blkOut repl)).flatten := by
  intro blocks
  induction blocks with
  | nil => intro _ _; simp [replaceAll_nil]
  | cons b rest ih =>
    intro hchunk hother
    simp only [List.map_cons, List.flatten_cons]
    have ihr := ih (fun s hs => hchunk s (List.mem_cons_of_mem _ hs))
      (fun pb hpb => hother pb (List.mem_cons_of_mem _ hpb))
    cases b with
    | chunk s =>
      rw [show blkText pat (Blk.chunk s) = s from rfl,
        show blkOut repl (Blk.chunk s) = s from rfl]
      rw [skipChunk pat repl hpat s _ (hchunk s (List.mem_cons_self _ _)), ihr]
    | target =>
      rw [show blkText pat Blk.target = pat from rfl,
        show blkOut repl Blk.target = repl from rfl]
      rw [consumePat pat repl _ hne, ihr]
    | other pb =>
      rw [show blkText pat (Blk.other pb) = pb from rfl,
        show blkOut repl (Blk.other pb) = pb from rfl]
      rw [skipBlock pat repl pb (hother pb (List.mem_cons_self _ _)) _, ihr]

/-- C7: override-template substitution — for any template assembled from
brace-free literal segments and the three placeholders (each allowed any
number of times, including zero, so a missing placeholder simply leaves that
substitution absent), the builder replaces every placeholder occurrence with
the computed ticket count, ticket-number list, and formatted ticket block
respectively, and passes all other template text through verbatim. -/
theorem override_template_substitution (tickets : List Ticket) (L : List Seg)
    (hlit : ∀ seg ∈ L, segLitOk seg = true)
    (hne : shapeTemplate L ≠ []) :
    build_analysis_prompt tickets (PromptTemplate.strTemplate ⟨shapeTemplate L⟩)
      = ⟨shapeSubst tickets L⟩ := by
  have hlit' : ∀ s, Seg.lit s ∈ L → '\x7b' ∉ s.data := by
    intro s hs hmem
    have h1 := hlit (Seg.lit s) hs
    rw [show segLitOk (Seg.lit s) = !(s.data.contains '\x7b') from rfl] at h1
    have h2 : s.data.contains '\x7b' = true := List.elem_iff.mpr hmem
    rw [h2] at h1
    exact absurd h1 (by decide)
  have hc1 : ∀ s, Blk.chunk s ∈ L.map segBlk1 → '\x7b' ∉ s := by
    intro s hs
    obtain ⟨seg, hseg, heq⟩ := List.mem_map.mp hs
    cases seg with
    | lit s' =>
      injection heq with h2
      rw [← h2]
      exact hlit' s' hseg
    | count => simp [segBlk1] at heq
    | numbers => simp [segBlk1] at heq
    | formatted => simp [segBlk1] at heq
  have ho1 : ∀ pb, Blk.other pb ∈ L.map segBlk1 → noTailMatch PH_COUNT pb := by
    intro pb hpb
    obtain ⟨seg, hseg, heq⟩ := List.mem_map.mp hpb
    cases seg with
    | lit s' => simp [segBlk1] at heq
    | count => simp [segBlk1] at heq
    | numbers =>
      injection heq with h2
      rw [← h2]
      decide
    | formatted =>
      injection heq with h2
      rw [← h2]
      decide
  have hc2 : ∀ s, Blk.chunk s ∈ L.map (segBlk2 tickets) → '\x7b' ∉ s := by
    intro s hs
    obtain ⟨seg, hseg, heq⟩ := List.mem_map.mp hs
    cases seg with
    | lit s' =>
      injection heq with h2
      rw [← h2]
      exact hlit' s' hseg
    | count =>
      injection heq with h2
      rw [← h2]
      exact brace_not_mem_pyStrNatChars _
    | numbers => simp [segBlk2] at heq
    | formatted => simp [segBlk2] at heq
  have ho2 : ∀ pb, Blk.other pb ∈ L.map (segBlk2 tickets) → noTailMatch PH_NUMBERS pb := by
    intro pb hpb
    obtain ⟨seg, hseg, heq⟩ := List.mem_map.mp hpb
    cases seg with
    | lit s' => simp [segBlk2] at heq
    | count => simp [segBlk2] at heq
    | numbers => simp [segBlk2] at heq
    | formatted =>
      injection heq with h2
      rw [← h2]
      decide
  have hc3 : ∀ s, Blk.chunk s ∈ L.map (segBlk3 tickets) → '\x7b' ∉ s := by
    intro s hs
    obtain ⟨seg, hseg, heq⟩ := List.mem_map.mp hs
    cases seg with
    | lit s' =>
      injection heq with h2
      rw [← h2]
      exact hlit' s' hseg
    | count =>
      injection heq with h2
      rw [← h2]
      exact brace_not_mem_pyStrNatChars _
    | numbers =>
      injection heq with h2
      rw [← h2]
      exact brace_not_mem_allTicketNumbers _
    | formatted => simp [segBlk3] at heq
  have ho3 : ∀ pb, Blk.other pb ∈ L.map (segBlk3 tickets) → noTailMatch PH_FORMATTED pb := by
    intro pb hpb
    obtain ⟨seg, hseg, heq⟩ := List.mem_map.mp hpb
    cases seg with
    | lit s' => simp [segBlk3] at heq
    | count => simp [segBlk3] at heq
    | numbers => simp [segBlk3] at heq
    | formatted => simp [segBlk3] at heq
  have hT1 : shapeTemplate L = ((L.map segBlk1).map (blkText PH_COUNT)).flatten := by
    unfold shapeTemplate
    rw [List.map_map]
    apply congrArg
    apply List.map_congr_left
    intro seg _
    cases seg <;> rfl
  have hconv12 : ((L.map segBlk1).map (blkOut (pyStrNatChars tickets.length))).flatten
      = ((L.map (segBlk2 tickets)).map (blkText PH_NUMBERS)).flatten := by
    rw [List.map_map, List.map_map]
    apply congrArg
    apply List.map_congr_left
    intro seg _
    cases seg <;> rfl
  have hconv23 : ((L.map (segBlk2 tickets)).map (blkOut (allTicketNumbersChars tickets))).flatten
      = ((L.map (segBlk3 tickets)).map (blkText PH_FORMATTED)).flatten := by
    rw [List.map_map, List.map_map]
    apply congrArg
    apply List.map_congr_left
    intro seg _
    cases seg <;> rfl
  have hfinal : ((L.map (segBlk3 tickets)).map (blkOut (ticketsFormattedChars tickets))).flatten
      = shapeSubst tickets L := by
    unfold shapeSubst
    rw [List.map_map]
    apply congrArg
    apply List.map_congr_left
    intro seg _
    cases seg <;> rfl
  unfold build_analysis_prompt
  dsimp only
  rw [if_neg (show ¬((⟨shapeTemplate L⟩ : String).data = []) from hne)]
  apply congrArg
  show replaceAll PH_FORMATTED (ticketsFormattedChars tickets)
      (replaceAll PH_NUMBERS (allTicketNumbersChars tickets)
        (replaceAll PH_COUNT (pyStrNatChars tickets.length) (shapeTemplate L)))
    = shapeSubst tickets L
  rw [hT1]
  rw [replaceAll_blocks PH_COUNT (pyStrNatChars tickets.length) (by decide) (by decide)
    (L.map segBlk1) hc1 ho1]
  rw [hconv12]
  rw [replaceAll_blocks PH_NUMBERS (allTicketNumbersChars tickets) (by decide) (by decide)
    (L.map (segBlk2 tickets)) hc2 ho2]
  rw [hconv23]
  rw [replaceAll_blocks PH_FORMATTED (ticketsFormattedChars tickets) (by decide) (by decide)
    (L.map (segBlk3 tickets)) hc3 ho3]
  exact hfinal

/-- Witness for C7: a concrete template with all three placeholders renders to
the fully substituted document. -/
theorem override_template_substitution_witness :
    (∀ seg ∈ exSegs7, segLitOk seg = true)
    ∧ shapeTemplate exSegs7 ≠ []
    ∧ build_analysis_prompt exTickets7 (PromptTemplate.strTemplate ⟨shapeTemplate exSegs7⟩)
        = ⟨shapeSubst exTickets7 exSegs7⟩ :=
  ⟨by decide, by decide,
    override_template_substitution exTickets7 exSegs7 (by decide) (by decide)⟩

/-- Deduplication is the identity on duplicate-free lists. -/
theorem pyDedupFrom_eq_self [DecidableEq α] (l : List α) :
    ∀ seen, (∀ a ∈ l, a ∉ seen) → l.Nodup → pyDedupFrom seen l = l := by
  induction l with
  | nil => intro seen _ _; rfl
  | cons x rest ih =>
    intro seen hs hn
    simp only [pyDedupFrom]
    rw [if_neg (hs x (List.mem_cons_self _ _))]
    congr 1
    apply ih
    · intro a ha
      rw [List.mem_cons]
      rintro (rfl | hmem)
      · exact (List.nodup_cons.mp hn).1 ha
      · exact hs a (List.mem_cons_of_mem _ ha) hmem
    · exact (List.nodup_cons.mp hn).2

/-- Deduplication is the identity on duplicate-free lists. -/
theorem pyDedup_eq_self [DecidableEq α] (l : List α) (h : l.Nodup) : pyDedup l = l :=
  pyDedupFrom_eq_self l [] (by simp) h

/-- The values selected for one category form a sublist of all event values. -/
theorem filterMap_sel_sublist (c : String) (evs : List (String × Int)) :
    (evs.filterMap (fun e => if e.1 = c then some e.2 else none)).Sublist
      (evs.map Prod.snd) := by
  induction evs with
  | nil => simp
  | cons e rest ih =>
    rw [List.filterMap_cons, List.map_cons]
    by_cases h : e.1 = c
    · rw [if_pos h]
      exact ih.cons₂ _
    · rw [if_neg h]
      exact ih.cons _

/-- With duplicate-free keys, the mapping determines values uniquely. -/
theorem keyNodup_unique (cls : List (String × String))
    (hkeys : (cls.map Prod.fst).Nodup) (s v1 v2 : String)
    (h1 : (s, v1) ∈ cls) (h2 : (s, v2) ∈ cls) : v1 = v2 := by
  induction cls with
  | nil => cases h1
  | cons kv rest ih =>
    rw [List.map_cons, List.nodup_cons] at hkeys
    rcases List.mem_cons.mp h1 with he1 | ht1 <;> rcases List.mem_cons.mp h2 with he2 | ht2
    · exact (congrArg Prod.snd he1).trans (congrArg Prod.snd he2).symm
    · exfalso
      apply hkeys.1
      rw [← congrArg Prod.fst he1]
      exact List.mem_map.mpr ⟨(s, v2), ht2, rfl⟩
    · exfalso
      apply hkeys.1
      rw [← congrArg Prod.fst he2]
      exact List.mem_map.mpr ⟨(s, v1), ht1, rfl⟩
    · exact ih hkeys.2 ht1 ht2

/-- Membership in the valid-classification key list. -/
theorem mem_classifyKeys (input trendNums valid : List String)
    (cls : List (String × String)) (s : String) :
    s ∈ classifyKeys input trendNums valid cls
      ↔ ∃ v, (s, v) ∈ cls ∧ s ∈ input ∧ s ∉ trendNums ∧ v ∈ valid := by
  simp only [classifyKeys, List.mem_filterMap]
  constructor
  · rintro ⟨kv, hkv, hif⟩
    by_cases hp : kv.1 ∈ input ∧ kv.1 ∉ trendNums ∧ kv.2 ∈ valid
    · rw [if_pos hp] at hif
      have hs : kv.1 = s := Option.some_inj.mp hif
      refine ⟨kv.2, ?_, hs ▸ hp.1, hs ▸ hp.2.1, hp.2.2⟩
      rw [← hs]
      exact hkv
    · rw [if_neg hp] at hif
      cases hif
  · rintro ⟨v, hv, h1, h2, h3⟩
    exact ⟨(s, v), hv, by rw [if_pos ⟨h1, h2, h3⟩]⟩

/-- The valid-classification keys form a sublist of all mapping keys. -/
theorem classifyKeys_sublist (input trendNums valid : List String)
    (cls : List (String × String)) :
    (classifyKeys input trendNums valid cls).Sublist (cls.map Prod.fst) := by
  unfold classifyKeys
  induction cls with
  | nil => simp
  | cons kv rest ih =>
    rw [List.filterMap_cons, List.map_cons]
    by_cases h : kv.1 ∈ input ∧ kv.1 ∉ trendNums ∧ kv.2 ∈ valid
    · rw [if_pos h]
      exact ih.cons₂ _
    · rw [if_neg h]
      exact ih.cons _

/-- The unrecognised keys form a sublist of all mapping keys. -/
theorem unrecognisedKeys_sublist (input trendNums valid : List String)
    (cls : List (String × String)) :
    (unrecognisedKeys input trendNums valid cls).Sublist (cls.map Prod.fst) := by
  unfold unrecognisedKeys
  induction cls with
  | nil => simp
  | cons kv rest ih =>
    rw [List.filterMap_cons, List.map_cons]
    by_cases h : kv.1 ∈ input ∧ kv.1 ∉ trendNums ∧ kv.2 ∉ valid
    · rw [if_pos h]
      exact ih.cons₂ _
    · rw [if_neg h]
      exact ih.cons _

/-- On canonical input number strings, `intOfNumStr` is injective. -/
theorem intOfNumStr_injOn_input (tickets : List Ticket) (s1 s2 : String)
    (h1 : s1 ∈ inputTicketNumberStrs tickets) (h2 : s2 ∈ inputTicketNumberStrs tickets)
    (heq : intOfNumStr s1 = intOfNumStr s2) : s1 = s2 := by
  obtain ⟨t1, _, rfl⟩ := List.mem_map.mp h1
  obtain ⟨t2, _, rfl⟩ := List.mem_map.mp h2
  rw [intOfNumStr_pyStrInt, intOfNumStr_pyStrInt] at heq
  rw [heq]

/-- Appending one event's value to its (unique) category bucket permutes the
flattened table by appending that one value. -/
theorem flatten_appendCat (ids : List String) (hid : ids.Nodup)
    (f : String → List Int) (c : String) (n : Int) (hc : c ∈ ids) :
    ((ids.map (appendCat f c n)).flatten).Perm ((ids.map f).flatten ++ [n]) := by
  induction ids with
  | nil => cases hc
  | cons c0 rest ih =>
    rw [List.map_cons, List.map_cons, List.flatten_cons, List.flatten_cons]
    rcases List.mem_cons.mp hc with rfl | hmem
    · have hrest : rest.map (appendCat f c n) = rest.map f := by
        apply List.map_congr_left
        intro c' hc'
        show appendCat f c n c' = f c'
        unfold appendCat
        rw [if_neg (fun (he : c' = c) => (List.nodup_cons.mp hid).1 (he ▸ hc'))]
      rw [hrest, show appendCat f c n c = f c ++ [n] from by
        unfold appendCat; rw [if_pos rfl]]
      have s1 : ((f c ++ [n]) ++ (rest.map f).flatten) =
          (f c ++ ([n] ++ (rest.map f).flatten)) := List.append_assoc _ _ _
      have s2 : (f c ++ ([n] ++ (rest.map f).flatten)).Perm
          (f c ++ ((rest.map f).flatten ++ [n])) :=
        List.Perm.append_left _ List.perm_append_comm
      have s3 : (f c ++ ((rest.map f).flatten ++ [n])) =
          ((f c ++ (rest.map f).flatten) ++ [n]) := (List.append_assoc _ _ _).symm
      rw [s1, ← s3]
      exact s2
    · have hne : c0 ≠ c := fun he => (List.nodup_cons.mp hid).1 (he ▸ hmem)
      rw [show appendCat f c n c0 = f c0 from by
        unfold appendCat; rw [if_neg hne]]
      have s1 : (f c0 ++ ((rest.map (appendCat f c n)).flatten)).Perm
          (f c0 ++ ((rest.map f).flatten ++ [n])) :=
        List.Perm.append_left _ (ih (List.nodup_cons.mp hid).2 hmem)
      rw [← List.append_assoc] at s1
      exact s1

/-- Replaying a list of events whose categories all lie in a duplicate-free id
list permutes the flattened table by appending all event values. -/
theorem flatten_applyEvents (ids : List String) (hid : ids.Nodup) :
    ∀ (evs : List (String × Int)) (f : String → List Int),
      (∀ e ∈ evs, e.1 ∈ ids) →
      ((ids.map (applyEvents f evs)).flatten).Perm
        ((ids.map f).flatten ++ evs.map Prod.snd) := by
  intro evs
  induction evs with
  | nil =>
    intro f _
    simp [applyEvents]
  | cons e rest ih =>
    intro f h
    have h1 : ((ids.map (applyEvents (appendCat f e.1 e.2) rest)).flatten).Perm
        ((ids.map (appendCat f e.1 e.2)).flatten ++ rest.map Prod.snd) :=
      ih _ (fun e' he' => h e' (List.mem_cons_of_mem _ he'))
    have h2 := (flatten_appendCat ids hid f e.1 e.2
      (h e (List.mem_cons_self _ _))).append_right (rest.map Prod.snd)
    show ((ids.map (applyEvents (appendCat f e.1 e.2) rest)).flatten).Perm _
    rw [List.map_cons]
    refine (h1.trans h2).trans ?_
    rw [List.append_assoc]
    rfl

/-- C1: counterexample — a one-ticket batch whose reply proposes an accepted
trend made of two ticket numbers foreign to the batch: the result assigns
three numbers for a batch of one, among them "5", which is not an input
number, so the partition invariant fails for arbitrary raw replies. -/
theorem partition_counterexample :
    (analyze_tickets exTickets1 exRaw1).map (fun a => (assignedNumberStrs a).length)
        = some 3
      ∧ exTickets1.length = 1
      ∧ (analyze_tickets exTickets1 exRaw1).map
          (fun a => decide ("5" ∈ assignedNumberStrs a)) = some true
      ∧ "5" ∉ inputTicketNumberStrs exTickets1 := by
  refine ⟨by decide, rfl, by decide, by decide⟩

/-- The values of the classify events are the `int()` images of the
valid-classification keys. -/
theorem vals_classifyEvents (input trendNums valid : List String)
    (cls : List (String × String)) :
    (classifyEvents input trendNums valid cls).map Prod.snd
      = (classifyKeys input trendNums valid cls).map intOfNumStr := by
  induction cls with
  | nil => rfl
  | cons kv rest ih =>
    simp only [classifyEvents, classifyKeys, List.filterMap_cons] at *
    by_cases h : kv.1 ∈ input ∧ kv.1 ∉ trendNums ∧ kv.2 ∈ valid
    · rw [if_pos h, if_pos h, List.map_cons, List.map_cons, ih]
    · rw [if_neg h, if_neg h, ih]

/-- The values of the trend rescue events are the `int()` images of each
rejected trend's deduplicated ticket-number entries. -/
theorem vals_trendEvents (cls : List (String × String)) (valid : List String)
    (trends : List TrendProposal) :
    (trendEvents cls valid trends).map Prod.snd
      = ((trends.filter (fun tr => decide (trendRejected tr))).map
          (fun tr => (pyDedup tr.ticket_numbers).map valJ)).flatten := by
  unfold trendEvents
  rw [List.map_flatten, List.map_map]
  congr 1
  apply List.map_congr_left
  intro tr _
  show (rescueEvents cls valid (pyDedup tr.ticket_numbers)).map Prod.snd = _
  unfold rescueEvents
  rw [List.map_map]
  rfl

/-- The values of the three pre-trend event phases are the `int()` images of
the valid-classification, unrecognised and missing keys, in order. -/
theorem vals_preTrendEvents (tickets : List Ticket) (raw : RawReply) :
    (preTrendEvents tickets raw).map Prod.snd
      = (classifyKeys (inputTicketNumberStrs tickets) (trendTicketNumberStrs raw)
            validCategoryIds raw.classifications
          ++ unrecognisedKeys (inputTicketNumberStrs tickets) (trendTicketNumberStrs raw)
            validCategoryIds raw.classifications
          ++ missingKeys tickets raw).map intOfNumStr := by
  unfold preTrendEvents classifyFallbackEvents missingEvents
  rw [List.map_append, List.map_append, List.map_append, List.map_append,
    vals_classifyEvents, List.map_map, List.map_map]
  rfl

/-- The fallback category id is a valid taxonomy id. -/
theorem fallback_mem_valid : FALLBACK_CATEGORY ∈ validCategoryIds := by decide

/-- The taxonomy ids are pairwise distinct. -/
theorem nodup_validCategoryIds : validCategoryIds.Nodup := by decide

/-- Every pre-trend event's category is a valid taxonomy id. -/
theorem cats_preTrendEvents (tickets : List Ticket) (raw : RawReply) :
    ∀ e ∈ preTrendEvents tickets raw, e.1 ∈ validCategoryIds := by
  intro e he
  unfold preTrendEvents at he
  rcases List.mem_append.mp he with he' | he'
  · rcases List.mem_append.mp he' with hc | hu
    · obtain ⟨kv, hkv, hif⟩ := List.mem_filterMap.mp hc
      by_cases hp : kv.1 ∈ inputTicketNumberStrs tickets
          ∧ kv.1 ∉ trendTicketNumberStrs raw ∧ kv.2 ∈ validCategoryIds
      · rw [if_pos hp] at hif
        obtain rfl := Option.some_inj.mp hif
        exact hp.2.2
      · rw [if_neg hp] at hif
        cases hif
    · obtain ⟨k, _, rfl⟩ := List.mem_map.mp hu
      exact fallback_mem_valid
  · obtain ⟨k, _, rfl⟩ := List.mem_map.mp he'
    exact fallback_mem_valid

/-- Every trend rescue event's category is a valid taxonomy id. -/
theorem cats_trendEvents (cls : List (String × String))
    (trends : List TrendProposal) :
    ∀ e ∈ trendEvents cls validCategoryIds trends, e.1 ∈ validCategoryIds := by
  intro e he
  unfold trendEvents at he
  obtain ⟨l, hl, hel⟩ := List.mem_flatten.mp he
  obtain ⟨tr, _, rfl⟩ := List.mem_map.mp hl
  obtain ⟨j, _, rfl⟩ := List.mem_map.mp hel
  show rescueTarget cls validCategoryIds j ∈ validCategoryIds
  unfold rescueTarget
  cases cls.lookup (pyStrJ j) with
  | none => exact fallback_mem_valid
  | some c =>
    dsimp only
    by_cases hc : c ∈ validCategoryIds
    · rw [if_pos hc]; exact hc
    · rw [if_neg hc]; exact fallback_mem_valid

/-- Every pre-trend key is an input number string not claimed by a trend. -/
theorem preTrendKeys_mem_input (tickets : List Ticket) (raw : RawReply) (s : String)
    (hs : s ∈ classifyKeys (inputTicketNumberStrs tickets) (trendTicketNumberStrs raw)
            validCategoryIds raw.classifications
          ++ unrecognisedKeys (inputTicketNumberStrs tickets) (trendTicketNumberStrs raw)
            validCategoryIds raw.classifications
          ++ missingKeys tickets raw) :
    s ∈ inputTicketNumberStrs tickets ∧ s ∉ trendTicketNumberStrs raw := by
  rcases List.mem_append.mp hs with hs' | hm
  · rcases List.mem_append.mp hs' with hc | hu
    · obtain ⟨v, _, h1, h2, _⟩ := (mem_classifyKeys _ _ _ _ _).mp hc
      exact ⟨h1, h2⟩
    · obtain ⟨v, _, h1, h2, _⟩ := (mem_unrecognisedKeys _ _ _ _ _).mp hu
      exact ⟨h1, h2⟩
  · obtain ⟨hd, hcond⟩ := List.mem_filter.mp hm
    exact ⟨(mem_pyDedup _ _).mp hd, (of_decide_eq_true hcond).2⟩

/-- With duplicate-free classification keys, the concatenated pre-trend key
list is duplicate-free. -/
theorem nodup_preTrendKeys (tickets : List Ticket) (raw : RawReply)
    (hkeys : (raw.classifications.map Prod.fst).Nodup) :
    (classifyKeys (inputTicketNumberStrs tickets) (trendTicketNumberStrs raw)
          validCategoryIds raw.classifications
        ++ unrecognisedKeys (inputTicketNumberStrs tickets) (trendTicketNumberStrs raw)
          validCategoryIds raw.classifications
        ++ missingKeys tickets raw).Nodup := by
  rw [List.append_assoc, List.nodup_append]
  refine ⟨hkeys.sublist (classifyKeys_sublist _ _ _ _), ?_, ?_⟩
  · rw [List.nodup_append]
    refine ⟨hkeys.sublist (unrecognisedKeys_sublist _ _ _ _),
      (nodup_pyDedup _).filter _, ?_⟩
    intro s hu hm
    obtain ⟨v, hv, _, _, _⟩ := (mem_unrecognisedKeys _ _ _ _ _).mp hu
    obtain ⟨_, hcond⟩ := List.mem_filter.mp hm
    exact (of_decide_eq_true hcond).1 (s, v) hv rfl
  · intro s hc hmem
    obtain ⟨v, hv, _, _, hvalid⟩ := (mem_classifyKeys _ _ _ _ _).mp hc
    rcases List.mem_append.mp hmem with hu | hm
    · obtain ⟨v', hv', _, _, hinvalid⟩ := (mem_unrecognisedKeys _ _ _ _ _).mp hu
      exact hinvalid (keyNodup_unique _ hkeys s v' v hv' hv ▸ hvalid)
    · obtain ⟨_, hcond⟩ := List.mem_filter.mp hm
      exact (of_decide_eq_true hcond).1 (s, v) hv rfl

/-- With duplicate-free classification keys, the pre-trend event values are
pairwise distinct. -/
theorem nodup_preTrendVals (tickets : List Ticket) (raw : RawReply)
    (hkeys : (raw.classifications.map Prod.fst).Nodup) :
    ((preTrendEvents tickets raw).map Prod.snd).Nodup := by
  rw [vals_preTrendEvents]
  apply (nodup_preTrendKeys tickets raw hkeys).map_on
  intro s1 h1 s2 h2 heq
  exact intOfNumStr_injOn_input tickets s1 s2
    (preTrendKeys_mem_input tickets raw s1 h1).1
    (preTrendKeys_mem_input tickets raw s2 h2).1 heq

/-- Every trend rescue value is an input ticket number whose canonical string
is claimed by a proposed trend, provided proposals draw on the batch. -/
theorem trendVal_char (tickets : List Ticket) (raw : RawReply)
    (htr : ∀ tr ∈ raw.new_trends, ∀ j ∈ tr.ticket_numbers,
      ∃ t ∈ tickets, j = JNum.int t.number)
    (v : Int)
    (hv : v ∈ (trendEvents raw.classifications validCategoryIds
        raw.new_trends).map Prod.snd) :
    (∃ t ∈ tickets, v = t.number) ∧ pyStrInt v ∈ trendTicketNumberStrs raw := by
  rw [vals_trendEvents] at hv
  obtain ⟨l, hl, hvl⟩ := List.mem_flatten.mp hv
  obtain ⟨tr, htrf, rfl⟩ := List.mem_map.mp hl
  obtain ⟨j, hj, rfl⟩ := List.mem_map.mp hvl
  have hjmem : j ∈ tr.ticket_numbers := (mem_pyDedup _ _).mp hj
  have htrmem : tr ∈ raw.new_trends := List.mem_of_mem_filter htrf
  obtain ⟨t, ht, rfl⟩ := htr tr htrmem j hjmem
  have hval : valJ (JNum.int t.number) = t.number := by
    simp [valJ, pyIntJ_int]
  refine ⟨⟨t, ht, hval⟩, ?_⟩
  rw [hval]
  show pyStrJ (JNum.int t.number) ∈ trendTicketNumberStrs raw
  unfold trendTicketNumberStrs
  exact List.mem_flatten.mpr ⟨_, List.mem_map.mpr ⟨tr, htrmem, rfl⟩,
    List.mem_map.mpr ⟨_, hjmem, rfl⟩⟩

/-- When proposals draw on the batch and are pairwise disjoint, the trend
rescue values are pairwise distinct. -/
theorem nodup_trendEventVals (tickets : List Ticket) (raw : RawReply)
    (htr : ∀ tr ∈ raw.new_trends, ∀ j ∈ tr.ticket_numbers,
      ∃ t ∈ tickets, j = JNum.int t.number)
    (hdisj : raw.new_trends.Pairwise
      (fun tr1 tr2 => ∀ j ∈ tr1.ticket_numbers, j ∉ tr2.ticket_numbers)) :
    ((trendEvents raw.classifications validCategoryIds
        raw.new_trends).map Prod.snd).Nodup := by
  rw [vals_trendEvents, List.nodup_flatten]
  constructor
  · intro l hl
    obtain ⟨tr, htrf, rfl⟩ := List.mem_map.mp hl
    have htr' := htr tr (List.mem_of_mem_filter htrf)
    apply (nodup_pyDedup _).map_on
    intro j1 h1 j2 h2 hveq
    obtain ⟨t1, _, rfl⟩ := htr' j1 ((mem_pyDedup _ _).mp h1)
    obtain ⟨t2, _, rfl⟩ := htr' j2 ((mem_pyDedup _ _).mp h2)
    simp only [valJ, pyIntJ_int, Option.getD_some] at hveq
    rw [hveq]
  · rw [List.pairwise_map]
    have hsub : (raw.new_trends.filter
        (fun tr => decide (trendRejected tr))).Sublist raw.new_trends :=
      List.filter_sublist _
    have hpf := hdisj.sublist hsub
    apply List.Pairwise.imp_of_mem ?_ hpf
    intro tr1 tr2 h1 h2 hR v hv1 hv2
    obtain ⟨j1, hj1, rfl⟩ := List.mem_map.mp hv1
    obtain ⟨j2, hj2, hveq⟩ := List.mem_map.mp hv2
    have htr1 := htr tr1 (List.mem_of_mem_filter h1)
    have htr2 := htr tr2 (List.mem_of_mem_filter h2)
    obtain ⟨t1, _, rfl⟩ := htr1 j1 ((mem_pyDedup _ _).mp hj1)
    obtain ⟨t2, _, rfl⟩ := htr2 j2 ((mem_pyDedup _ _).mp hj2)
    simp only [valJ, pyIntJ_int, Option.getD_some] at hveq
    rw [hveq] at hj2
    exact hR _ ((mem_pyDedup _ _).mp hj1) ((mem_pyDedup _ _).mp hj2)

/-- Pairwise-disjoint proposals are mutually disjoint in both orders. -/
theorem trends_disjoint_forall (trends : List TrendProposal)
    (hdisj : trends.Pairwise
      (fun tr1 tr2 => ∀ j ∈ tr1.ticket_numbers, j ∉ tr2.ticket_numbers)) :
    ∀ tr1 ∈ trends, ∀ tr2 ∈ trends, tr1 ≠ tr2 →
      ∀ j ∈ tr1.ticket_numbers, j ∉ tr2.ticket_numbers := by
  intro tr1 h1 tr2 h2 hne
  have hsym : Symmetric (fun (a b : TrendProposal) =>
      ∀ j ∈ a.ticket_numbers, j ∉ b.ticket_numbers) :=
    fun a b hab j hjb hja => hab j hja hjb
  exact hdisj.forall hsym h1 h2 hne

/-- With batch-drawn, pairwise-disjoint proposals and duplicate-free
classification keys, all append-event values of the whole reconciliation are
pairwise distinct. -/
theorem nodup_EallVals (tickets : List Ticket) (raw : RawReply)
    (hkeys : (raw.classifications.map Prod.fst).Nodup)
    (htr : ∀ tr ∈ raw.new_trends, ∀ j ∈ tr.ticket_numbers,
      ∃ t ∈ tickets, j = JNum.int t.number)
    (hdisj : raw.new_trends.Pairwise
      (fun tr1 tr2 => ∀ j ∈ tr1.ticket_numbers, j ∉ tr2.ticket_numbers)) :
    ((preTrendEvents tickets raw
        ++ trendEvents raw.classifications validCategoryIds
          raw.new_trends).map Prod.snd).Nodup := by
  rw [List.map_append, List.nodup_append]
  refine ⟨nodup_preTrendVals _ _ hkeys, nodup_trendEventVals _ _ htr hdisj, ?_⟩
  intro v hv1 hv2
  rw [vals_preTrendEvents] at hv1
  obtain ⟨s, hsmem, rfl⟩ := List.mem_map.mp hv1
  obtain ⟨hsin, hstn⟩ := preTrendKeys_mem_input tickets raw s hsmem
  obtain ⟨_, htn⟩ := trendVal_char tickets raw htr _ hv2
  obtain ⟨t', _, rfl⟩ := List.mem_map.mp hsin
  rw [intOfNumStr_pyStrInt] at htn
  exact hstn htn

/-- Every event value of the reconciliation is an input ticket number,
provided proposals draw on the batch. -/
theorem EallVal_mem_input (tickets : List Ticket) (raw : RawReply)
    (htr : ∀ tr ∈ raw.new_trends, ∀ j ∈ tr.ticket_numbers,
      ∃ t ∈ tickets, j = JNum.int t.number)
    (v : Int)
    (hv : v ∈ (preTrendEvents tickets raw
        ++ trendEvents raw.classifications validCategoryIds
          raw.new_trends).map Prod.snd) :
    pyStrInt v ∈ inputTicketNumberStrs tickets := by
  rw [List.map_append] at hv
  rcases List.mem_append.mp hv with hv1 | hv2
  · rw [vals_preTrendEvents] at hv1
    obtain ⟨s, hsmem, rfl⟩ := List.mem_map.mp hv1
    obtain ⟨hsin, _⟩ := preTrendKeys_mem_input tickets raw s hsmem
    obtain ⟨t', ht', rfl⟩ := List.mem_map.mp hsin
    rw [intOfNumStr_pyStrInt]
    exact List.mem_map.mpr ⟨t', ht', rfl⟩
  · obtain ⟨⟨t, ht, rfl⟩, _⟩ := trendVal_char tickets raw htr _ hv2
    exact List.mem_map.mpr ⟨t, ht, rfl⟩

/-- The ticket-number strings of the accepted trends, as a flattened map over
the accepted filter. -/
theorem trendNumberStrs_accepted (trends : List TrendProposal) :
    ((acceptedTrends trends).map
        (fun tr' => tr'.ticket_numbers.map pyStrJ)).flatten
      = ((trends.filter (fun tr => decide (¬ trendRejected tr))).map
          (fun tr => (pyDedup tr.ticket_numbers).map pyStrJ)).flatten := by
  unfold acceptedTrends
  rw [List.map_map]
  rfl

/-- Every accepted-trend number string is an input number string claimed by a
proposed trend, provided proposals draw on the batch. -/
theorem acceptedStr_char (tickets : List Ticket) (raw : RawReply)
    (htr : ∀ tr ∈ raw.new_trends, ∀ j ∈ tr.ticket_numbers,
      ∃ t ∈ tickets, j = JNum.int t.number)
    (s : String)
    (hs : s ∈ ((raw.new_trends.filter (fun tr => decide (¬ trendRejected tr))).map
        (fun tr => (pyDedup tr.ticket_numbers).map pyStrJ)).flatten) :
    s ∈ inputTicketNumberStrs tickets ∧ s ∈ trendTicketNumberStrs raw := by
  obtain ⟨l, hl, hsl⟩ := List.mem_flatten.mp hs
  obtain ⟨tr, htrf, rfl⟩ := List.mem_map.mp hl
  obtain ⟨j, hj, rfl⟩ := List.mem_map.mp hsl
  have hjmem : j ∈ tr.ticket_numbers := (mem_pyDedup _ _).mp hj
  have htrmem : tr ∈ raw.new_trends := List.mem_of_mem_filter htrf
  obtain ⟨t, ht, rfl⟩ := htr tr htrmem j hjmem
  refine ⟨List.mem_map.mpr ⟨t, ht, rfl⟩, ?_⟩
  unfold trendTicketNumberStrs
  exact List.mem_flatten.mpr ⟨_, List.mem_map.mpr ⟨tr, htrmem, rfl⟩,
    List.mem_map.mpr ⟨_, hjmem, rfl⟩⟩

/-- With batch-drawn, pairwise-disjoint proposals, the accepted-trend number
strings are pairwise distinct. -/
theorem nodup_acceptedStrs (tickets : List Ticket) (raw : RawReply)
    (htr : ∀ tr ∈ raw.new_trends, ∀ j ∈ tr.ticket_numbers,
      ∃ t ∈ tickets, j = JNum.int t.number)
    (hdisj : raw.new_trends.Pairwise
      (fun tr1 tr2 => ∀ j ∈ tr1.ticket_numbers, j ∉ tr2.ticket_numbers)) :
    (((raw.new_trends.filter (fun tr => decide (¬ trendRejected tr))).map
        (fun tr => (pyDedup tr.ticket_numbers).map pyStrJ)).flatten).Nodup := by
  rw [List.nodup_flatten]
  constructor
  · intro l hl
    obtain ⟨tr, htrf, rfl⟩ := List.mem_map.mp hl
    have htr' := htr tr (List.mem_of_mem_filter htrf)
    apply (nodup_pyDedup _).map_on
    intro j1 h1 j2 h2 hveq
    obtain ⟨t1, _, rfl⟩ := htr' j1 ((mem_pyDedup _ _).mp h1)
    obtain ⟨t2, _, rfl⟩ := htr' j2 ((mem_pyDedup _ _).mp h2)
    have : t1.number = t2.number := pyStrInt_injective hveq
    rw [this]
  · rw [List.pairwise_map]
    have hsub : (raw.new_trends.filter
        (fun tr => decide (¬ trendRejected tr))).Sublist raw.new_trends :=
      List.filter_sublist _
    have hpf := hdisj.sublist hsub
    apply List.Pairwise.imp_of_mem ?_ hpf
    intro tr1 tr2 h1 h2 hR s hs1 hs2
    obtain ⟨j1, hj1, rfl⟩ := List.mem_map.mp hs1
    obtain ⟨j2, hj2, hveq⟩ := List.mem_map.mp hs2
    have htr1 := htr tr1 (List.mem_of_mem_filter h1)
    have htr2 := htr tr2 (List.mem_of_mem_filter h2)
    obtain ⟨t1, _, rfl⟩ := htr1 j1 ((mem_pyDedup _ _).mp hj1)
    obtain ⟨t2, _, rfl⟩ := htr2 j2 ((mem_pyDedup _ _).mp hj2)
    have : t2.number = t1.number := pyStrInt_injective hveq
    rw [this] at hj2
    exact hR _ ((mem_pyDedup _ _).mp hj1) ((mem_pyDedup _ _).mp hj2)

/-- A table of empty buckets flattens to nothing. -/
theorem flatten_map_nil (ids : List String) :
    ((ids.map (fun _ => ([] : List Int))).flatten) = [] := by
  induction ids with
  | nil => rfl
  | cons _ _ ih => simp [ih]

/-- Every append event of the whole reconciliation targets a valid taxonomy
id. -/
theorem EallCats_valid (tickets : List Ticket) (raw : RawReply) :
    ∀ e ∈ preTrendEvents tickets raw
        ++ trendEvents raw.classifications validCategoryIds raw.new_trends,
      e.1 ∈ validCategoryIds := by
  intro e he
  rcases List.mem_append.mp he with h | h
  · exact cats_preTrendEvents tickets raw e h
  · exact cats_trendEvents raw.classifications raw.new_trends e h

/-- Category-side number strings never collide with accepted-trend number
strings, under batch-drawn pairwise-disjoint proposals. -/
theorem EallStrs_disjoint_acceptedStrs (tickets : List Ticket) (raw : RawReply)
    (htr : ∀ tr ∈ raw.new_trends, ∀ j ∈ tr.ticket_numbers,
      ∃ t ∈ tickets, j = JNum.int t.number)
    (hdisj : raw.new_trends.Pairwise
      (fun tr1 tr2 => ∀ j ∈ tr1.ticket_numbers, j ∉ tr2.ticket_numbers)) :
    ∀ s ∈ ((preTrendEvents tickets raw
        ++ trendEvents raw.classifications validCategoryIds
          raw.new_trends).map Prod.snd).map pyStrInt,
      s ∉ ((raw.new_trends.filter (fun tr => decide (¬ trendRejected tr))).map
        (fun tr => (pyDedup tr.ticket_numbers).map pyStrJ)).flatten := by
  intro s hs hs2
  obtain ⟨v, hv, rfl⟩ := List.mem_map.mp hs
  obtain ⟨l2, hl2, hsl2⟩ := List.mem_flatten.mp hs2
  obtain ⟨tr2, htrf2, rfl⟩ := List.mem_map.mp hl2
  obtain ⟨j2, hj2, hveq2⟩ := List.mem_map.mp hsl2
  have htrmem2 : tr2 ∈ raw.new_trends := List.mem_of_mem_filter htrf2
  obtain ⟨t2, ht2, rfl⟩ := htr tr2 htrmem2 j2 ((mem_pyDedup _ _).mp hj2)
  have hv2 : t2.number = v := pyStrInt_injective hveq2
  rw [List.map_append] at hv
  rcases List.mem_append.mp hv with hv1 | hv1
  · rw [vals_preTrendEvents] at hv1
    obtain ⟨k, hkmem, rfl⟩ := List.mem_map.mp hv1
    obtain ⟨hkin, hktn⟩ := preTrendKeys_mem_input tickets raw k hkmem
    obtain ⟨t', _, rfl⟩ := List.mem_map.mp hkin
    apply hktn
    rw [intOfNumStr_pyStrInt] at hv2
    have hmem : pyStrJ (JNum.int t2.number) ∈ trendTicketNumberStrs raw :=
      List.mem_flatten.mpr ⟨_, List.mem_map.mpr ⟨tr2, htrmem2, rfl⟩,
        List.mem_map.mpr ⟨_, (mem_pyDedup _ _).mp hj2, rfl⟩⟩
    rw [← hv2]
    exact hmem
  · rw [vals_trendEvents] at hv1
    obtain ⟨l1, hl1, hvl1⟩ := List.mem_flatten.mp hv1
    obtain ⟨tr1, htrf1, rfl⟩ := List.mem_map.mp hl1
    obtain ⟨j1, hj1, hveq1⟩ := List.mem_map.mp hvl1
    have htrmem1 : tr1 ∈ raw.new_trends := List.mem_of_mem_filter htrf1
    obtain ⟨t1, _, rfl⟩ := htr tr1 htrmem1 j1 ((mem_pyDedup _ _).mp hj1)
    have hv1' : t1.number = v := by
      simpa [valJ, pyIntJ_int] using hveq1
    have hrej1 : trendRejected tr1 :=
      of_decide_eq_true (List.mem_filter.mp htrf1).2
    have hrej2 : ¬ trendRejected tr2 :=
      of_decide_eq_true (List.mem_filter.mp htrf2).2
    have hne : tr1 ≠ tr2 := fun he => hrej2 (he ▸ hrej1)
    have hnum : t1.number = t2.number := hv1'.trans hv2.symm
    exact trends_disjoint_forall raw.new_trends hdisj tr1 htrmem1 tr2 htrmem2 hne
      _ ((mem_pyDedup _ _).mp hj1)
      (by rw [hnum]; exact (mem_pyDedup _ _).mp hj2)

/-- Membership in the permuted output view is exactly membership in the input
number strings, under batch-drawn proposals. -/
theorem assignedStr_mem_iff (tickets : List Ticket) (raw : RawReply)
    (htr : ∀ tr ∈ raw.new_trends, ∀ j ∈ tr.ticket_numbers,
      ∃ t ∈ tickets, j = JNum.int t.number) (s : String) :
    s ∈ ((preTrendEvents tickets raw
          ++ trendEvents raw.classifications validCategoryIds
            raw.new_trends).map Prod.snd).map pyStrInt
        ++ ((raw.new_trends.filter (fun tr => decide (¬ trendRejected tr))).map
          (fun tr => (pyDedup tr.ticket_numbers).map pyStrJ)).flatten
      ↔ s ∈ inputTicketNumberStrs tickets := by
  constructor
  · intro hs
    rcases List.mem_append.mp hs with hs1 | hs2
    · obtain ⟨v, hv, rfl⟩ := List.mem_map.mp hs1
      exact EallVal_mem_input tickets raw htr v hv
    · exact (acceptedStr_char tickets raw htr s hs2).1
  · intro hsin
    obtain ⟨t, ht, rfl⟩ := List.mem_map.mp hsin
    by_cases hstn : pyStrInt t.number ∈ trendTicketNumberStrs raw
    · unfold trendTicketNumberStrs at hstn
      obtain ⟨l, hl, hsl⟩ := List.mem_flatten.mp hstn
      obtain ⟨tr, htrm, rfl⟩ := List.mem_map.mp hl
      obtain ⟨j, hj, hjeq⟩ := List.mem_map.mp hsl
      by_cases hrej : trendRejected tr
      · apply List.mem_append.mpr
        left
        apply List.mem_map.mpr
        refine ⟨valJ j, ?_, ?_⟩
        · rw [List.map_append]
          apply List.mem_append.mpr
          right
          rw [vals_trendEvents]
          exact List.mem_flatten.mpr ⟨_,
            List.mem_map.mpr ⟨tr, List.mem_filter.mpr ⟨htrm, decide_eq_true hrej⟩, rfl⟩,
            List.mem_map.mpr ⟨j, (mem_pyDedup _ _).mpr hj, rfl⟩⟩
        · obtain ⟨t', _, rfl⟩ := htr tr htrm j hj
          show pyStrInt (valJ (JNum.int t'.number)) = pyStrInt t.number
          rw [show valJ (JNum.int t'.number) = t'.number from by
            simp [valJ, pyIntJ_int]]
          exact hjeq
      · apply List.mem_append.mpr
        right
        exact List.mem_flatten.mpr ⟨_,
          List.mem_map.mpr ⟨tr, List.mem_filter.mpr ⟨htrm, decide_eq_true hrej⟩, rfl⟩,
          List.mem_map.mpr ⟨j, (mem_pyDedup _ _).mpr hj, hjeq⟩⟩
    · apply List.mem_append.mpr
      left
      apply List.mem_map.mpr
      refine ⟨intOfNumStr (pyStrInt t.number), ?_, by rw [intOfNumStr_pyStrInt]⟩
      rw [List.map_append]
      apply List.mem_append.mpr
      left
      rw [vals_preTrendEvents]
      apply List.mem_map.mpr
      refine ⟨pyStrInt t.number, ?_, rfl⟩
      by_cases hcl : ∃ v', (pyStrInt t.number, v') ∈ raw.classifications
      · obtain ⟨v', hv'⟩ := hcl
        by_cases hval : v' ∈ validCategoryIds
        · exact List.mem_append.mpr (Or.inl (List.mem_append.mpr (Or.inl
            ((mem_classifyKeys _ _ _ _ _).mpr
              ⟨v', hv', List.mem_map.mpr ⟨t, ht, rfl⟩, hstn, hval⟩))))
        · exact List.mem_append.mpr (Or.inl (List.mem_append.mpr (Or.inr
            ((mem_unrecognisedKeys _ _ _ _ _).mpr
              ⟨v', hv', List.mem_map.mpr ⟨t, ht, rfl⟩, hstn, hval⟩))))
      · apply List.mem_append.mpr
        right
        apply List.mem_filter.mpr
        refine ⟨(mem_pyDedup _ _).mpr (List.mem_map.mpr ⟨t, ht, rfl⟩),
          decide_eq_true ⟨?_, hstn⟩⟩
        intro kv hkv heq
        exact hcl ⟨kv.2, by rw [← heq]; simpa using hkv⟩

/-- C1 (amended): the partition invariant holds for raw replies whose flat
classification keys are duplicate-free and whose proposed trends draw their
ticket numbers from the input batch, pairwise disjointly — with distinct input
ticket numbers, the number strings assigned across all taxonomy category lists
and accepted trend lists are a permutation of the input number strings:
exactly N assignments in total, each input number in exactly one list, and no
foreign number anywhere.  For arbitrary raw replies the invariant fails
(`partition_counterexample`). -/
theorem partition_amended (tickets : List Ticket) (raw : RawReply) (a : Analysis)
    (h : analyze_tickets tickets raw = some a)
    (hnd : (tickets.map (fun t => t.number)).Nodup)
    (hkeys : (raw.classifications.map Prod.fst).Nodup)
    (htr : ∀ tr ∈ raw.new_trends, ∀ j ∈ tr.ticket_numbers,
      ∃ t ∈ tickets, j = JNum.int t.number)
    (hdisj : raw.new_trends.Pairwise
      (fun tr1 tr2 => ∀ j ∈ tr1.ticket_numbers, j ∉ tr2.ticket_numbers)) :
    (assignedNumberStrs a).Perm (inputTicketNumberStrs tickets)
      ∧ (assignedNumberStrs a).length = tickets.length := by
  obtain ⟨f4, htl, hshape⟩ := analyze_tickets_some tickets raw a h
  have hfuel : ∀ tr ∈ raw.new_trends, trendRejected tr →
      ∀ j ∈ pyDedup tr.ticket_numbers, (pyIntJ j).isSome := by
    intro tr htrm _ j hj
    obtain ⟨t, _, rfl⟩ := htr tr htrm j ((mem_pyDedup _ _).mp hj)
    rw [pyIntJ_int]
    rfl
  rw [trendLoop_char raw.classifications validCategoryIds raw.new_trends
    (preTrendTable tickets raw) [] hfuel] at htl
  rw [Option.some_inj, Prod.mk.injEq] at htl
  obtain ⟨hf4, hacc⟩ := htl
  simp only [List.nil_append] at hacc
  have hf4E : f4 = applyEvents (fun _ => [])
      (preTrendEvents tickets raw
        ++ trendEvents raw.classifications validCategoryIds raw.new_trends) := by
    rw [← hf4, preTrendTable_char, applyEvents_append]
  have hndE := nodup_EallVals tickets raw hkeys htr hdisj
  have hf4nd : ∀ c, (f4 c).Nodup := by
    intro c
    rw [hf4E, applyEvents_apply]
    simp only [List.nil_append]
    exact hndE.sublist (filterMap_sel_sublist c _)
  rw [← hacc] at hshape
  have hassigned : assignedNumberStrs a
      = (KNOWN_CATEGORIES.map
          (fun c => (pyDedup (f4 c.category_id)).map pyStrInt)).flatten
        ++ ((acceptedTrends raw.new_trends).map
          (fun tr' => tr'.ticket_numbers.map pyStrJ)).flatten := by
    rw [hshape]
    unfold assignedNumberStrs categoryNumberStrs trendNumberStrs
    dsimp only
    rw [List.map_map]
    rfl
  have hcat2 : (KNOWN_CATEGORIES.map
        (fun c => (pyDedup (f4 c.category_id)).map pyStrInt)).flatten
      = ((validCategoryIds.map f4).flatten).map pyStrInt := by
    have h1 : KNOWN_CATEGORIES.map
          (fun c => (pyDedup (f4 c.category_id)).map pyStrInt)
        = KNOWN_CATEGORIES.map (fun c => (f4 c.category_id).map pyStrInt) :=
      List.map_congr_left (fun c _ => by rw [pyDedup_eq_self _ (hf4nd _)])
    rw [h1, List.map_flatten, List.map_map]
    unfold validCategoryIds
    rw [List.map_map]
    rfl
  have hperm1 : ((validCategoryIds.map f4).flatten).Perm
      ((preTrendEvents tickets raw
        ++ trendEvents raw.classifications validCategoryIds
          raw.new_trends).map Prod.snd) := by
    rw [hf4E]
    have hfa := flatten_applyEvents validCategoryIds nodup_validCategoryIds
      (preTrendEvents tickets raw
        ++ trendEvents raw.classifications validCategoryIds raw.new_trends)
      (fun _ => []) (EallCats_valid tickets raw)
    rw [flatten_map_nil, List.nil_append] at hfa
    exact hfa
  have hRnd : (((preTrendEvents tickets raw
        ++ trendEvents raw.classifications validCategoryIds
          raw.new_trends).map Prod.snd).map pyStrInt
      ++ ((raw.new_trends.filter (fun tr => decide (¬ trendRejected tr))).map
        (fun tr => (pyDedup tr.ticket_numbers).map pyStrJ)).flatten).Nodup :=
    List.nodup_append.mpr ⟨hndE.map pyStrInt_injective,
      nodup_acceptedStrs tickets raw htr hdisj,
      by intro s h1 h2; exact EallStrs_disjoint_acceptedStrs tickets raw htr hdisj s h1 h2⟩
  have hInd : (inputTicketNumberStrs tickets).Nodup := by
    have he : inputTicketNumberStrs tickets
        = (tickets.map (fun t => t.number)).map pyStrInt := by
      rw [List.map_map]
      rfl
    rw [he]
    exact hnd.map pyStrInt_injective
  have hext := (List.perm_ext_iff_of_nodup hRnd hInd).mpr
    (assignedStr_mem_iff tickets raw htr)
  have hP : (assignedNumberStrs a).Perm (inputTicketNumberStrs tickets) := by
    rw [hassigned, hcat2, trendNumberStrs_accepted]
    exact ((hperm1.map pyStrInt).append_right _).trans hext
  refine ⟨hP, ?_⟩
  rw [hP.length_eq]
  simp [inputTicketNumberStrs]

/-- Witness for the amended partition theorem on a four-ticket batch with an
accepted trend, a rescued rejected trend, a valid classification and an
invented category id. -/
theorem partition_amended_witness :
    (assignedNumberStrs exAnalysis1w).Perm (inputTicketNumberStrs exTickets1w)
      ∧ (assignedNumberStrs exAnalysis1w).length = exTickets1w.length :=
  partition_amended exTickets1w exRaw1w exAnalysis1w (by decide) (by decide)
    (by decide) (by decide) (by decide)
